import Mathlib

/-!
Verification of the NukeKV server engine (`src/server.cpp`, the v2.5 nuke-wire
TCP server, with `src/main.cpp` as the older REPL variant of the same design).

The development shallowly embeds the store core, the command handlers, the
command-line parser, the framed-transport receive path and the whole-word JSON
search of `server.cpp` as executable Lean definitions, and proves or refutes
the frozen specification claims about them.

Conventions:
* C++ `std::string` is modelled as Lean `String`; character-level scanning in
  the parser and the search works on `List Char` (for the ASCII comparisons the
  source performs, per-`Char` processing of valid UTF-8 text agrees with the
  per-byte processing of the C++ code).
* `size_t` / `unsigned long long` arithmetic is `Nat` with explicit `% 2^64`
  wrapping where the source can underflow (`usub`, `memAdjust`).
* the wire transport works on `List Nat` byte streams.
-/

namespace NukeKV

/-! ### ASCII character helpers (modelling `::toupper` / `::tolower` under the
"C"-compatible behaviour the source relies on, and `isspace`). -/

def toUpperChar (c : Char) : Char :=
  if 'a' ≤ c ∧ c ≤ 'z' then Char.ofNat (c.toNat - 32) else c

def toLowerChar (c : Char) : Char :=
  if 'A' ≤ c ∧ c ≤ 'Z' then Char.ofNat (c.toNat + 32) else c

/-- `isspace` for the byte values the source can feed it (ASCII whitespace;
bytes ≥ 128 are not whitespace in the locales in play). -/
def isSpaceChar (c : Char) : Bool :=
  c.toNat = 32 ∨ c.toNat = 9 ∨ c.toNat = 10 ∨ c.toNat = 11 ∨ c.toNat = 12 ∨ c.toNat = 13

def isDigitChar (c : Char) : Bool := '0' ≤ c ∧ c ≤ '9'

/-- `is_word_delimiter` from server.cpp: anything that is not an ASCII letter
or digit. -/
def is_word_delimiter (c : Char) : Bool :=
  !(('a' ≤ c ∧ c ≤ 'z') ∨ ('A' ≤ c ∧ c ≤ 'Z') ∨ ('0' ≤ c ∧ c ≤ '9'))

def toUpperStr (s : String) : String := ⟨s.data.map toUpperChar⟩

def toLowerStr (s : String) : String := ⟨s.data.map toLowerChar⟩

/-! ### 64-bit unsigned arithmetic -/

def U64 : Nat := 2 ^ 64

/-- `a - b` on `uint64_t`/`size_t` (wraps on underflow). -/
def usub (a b : Nat) : Nat := (a + (U64 - b % U64)) % U64

/-- `estimated_memory_usage_ += add - sub` where the subtraction is unsigned:
the source computes `(add - sub)` in `unsigned long long` and adds it to the
atomic counter, all mod `2^64`. -/
def memAdjust (e add sub : Nat) : Nat := (e + usub add sub) % U64

/-- byte length of a key or value (`std::string::size`). -/
def strSize (s : String) : Nat := s.utf8ByteSize

/-! ### `std::stoll` / `std::stoi` (base 10): skip leading whitespace, optional
sign, at least one digit, parse the maximal digit run, range-check the result,
ignore any trailing bytes. -/

def digitsVal (acc : Nat) : List Char → Nat
  | [] => acc
  | c :: cs => if isDigitChar c then digitsVal (acc * 10 + (c.toNat - 48)) cs else acc

def digitsLen : List Char → Nat
  | [] => 0
  | c :: cs => if isDigitChar c then digitsLen cs + 1 else 0

/-- Parse per `std::stoll`-family semantics with the given inclusive range.
Returns `none` where the C++ call throws (`invalid_argument` / `out_of_range`). -/
def stollRange (lo hi : Int) (s : String) : Option Int :=
  let cs := s.data.dropWhile (fun c => isSpaceChar c)
  let (sign, rest) : Int × List Char :=
    match cs with
    | '-' :: r => (-1, r)
    | '+' :: r => (1, r)
    | r => (1, r)
  if digitsLen rest = 0 then none
  else
    let v : Int := sign * (digitsVal 0 rest : Nat)
    if v < lo ∨ hi < v then none else some v

def stollOpt (s : String) : Option Int := stollRange (-(2 ^ 63)) (2 ^ 63 - 1) s

def stoiOpt (s : String) : Option Int := stollRange (-(2 ^ 31)) (2 ^ 31 - 1) s

/-! ### Association lists.

`std::unordered_map`/`std::list` are modelled as association lists and key
lists; only lookup/insert/erase behaviour matters to the claims, not bucket
order. -/

def alookup {α : Type} : List (String × α) → String → Option α
  | [], _ => none
  | (k, v) :: rest, key => if k = key then some v else alookup rest key

def ainsert {α : Type} : List (String × α) → String → α → List (String × α)
  | [], key, val => [(key, val)]
  | (k, v) :: rest, key, val =>
      if k = key then (key, val) :: rest else (k, v) :: ainsert rest key val

def aerase {α : Type} : List (String × α) → String → List (String × α)
  | [], _ => []
  | (k, v) :: rest, key => if k = key then rest else (k, v) :: aerase rest key

/-! ### Store core (`class NukeKV` state in server.cpp).

`kv` is `kv_store_`, `ttl` is `ttl_map_`, `lru` is `lru_list_` (MRU first;
`lru_map_` is an index into the list and is represented by the list itself),
`dirty` is `dirty_operations_`, `memEst` is `estimated_memory_usage_`. -/

structure Store where
  kv : List (String × String)
  ttl : List (String × Int)
  lru : List String
  dirty : Nat
  memEst : Nat
deriving Repr, DecidableEq

def emptyStore : Store := ⟨[], [], [], 0, 0⟩

/-- Process-wide configuration globals of server.cpp that the store code reads:
`CACHING_ENABLED`, `max_memory_bytes_`, `BATCH_PROCESSING_SIZE`,
`PERSISTENCE_ENABLED`. -/
structure Config where
  caching : Bool
  maxMem : Nat
  batch : Nat
  persist : Bool
deriving Repr, DecidableEq

/-- server.cpp defaults: caching on, `MAX_RAM_GB = 0` (so `max_memory_bytes_`
stays 0 and LRU bookkeeping is a no-op), batch size 1, persistence on. -/
def cfgDefault : Config := ⟨true, 0, 1, true⟩

/-- `_update_lru` from server.cpp. -/
def updateLru (cfg : Config) (key : String) (lru : List String) : List String :=
  if cfg.caching = false ∨ cfg.maxMem = 0 then lru
  else key :: lru.erase key

/-- One round of the eviction loop body of `_enforce_memory_limit`
(server.cpp): pop the LRU tail and erase the key from the value map, the TTL
map and the LRU index.  The source does NOT subtract the evicted pair's size
from `estimated_memory_usage_` (the older main.cpp variant does). -/
def evictOne (s : Store) : Store :=
  let key := s.lru.getLastD ""
  { kv := aerase s.kv key
    ttl := aerase s.ttl key
    lru := s.lru.dropLast
    dirty := s.dirty
    memEst := s.memEst }

/-- The `while (estimated_memory_usage_ > max_memory_bytes_ && !lru_list_.empty())`
loop, fuelled by the LRU length: each round shortens the LRU list by one, so
`s.lru.length` rounds bound the loop exactly. -/
def enforceLoop (maxMem : Nat) : Nat → Store → Store
  | 0, s => s
  | fuel + 1, s =>
      if maxMem < s.memEst ∧ s.lru ≠ [] then enforceLoop maxMem fuel (evictOne s)
      else s

/-- `_enforce_memory_limit` from server.cpp. -/
def enforceMemoryLimit (cfg : Config) (s : Store) : Store :=
  if cfg.caching = false ∨ cfg.maxMem = 0 then s
  else enforceLoop cfg.maxMem s.lru.length s

/-- A snapshot file's contents: the `store` and `ttl` objects. -/
def Snapshot : Type := List (String × String) × List (String × Int)

/-- `_save_to_file_unlocked(filename)` from server.cpp.  `openOk` says whether
`std::ofstream db_file(filename)` produced an open stream; `isDbFile` is the
`filename == DATABASE_FILENAME` comparison.  The returned snapshot is what was
written (`none` when nothing was).  Note the dirty-counter reset is outside
the `is_open()` guard in the source: it happens whether or not the file could
be written. -/
def save_to_file_unlocked (persist openOk isDbFile : Bool) (s : Store) :
    Store × Option Snapshot :=
  if persist = false then (s, none)
  else
    let written : Option Snapshot := if openOk then some (s.kv, s.ttl) else none
    let s' := if isDbFile then { s with dirty := 0 } else s
    (s', written)

/-- State effect of the synchronous `if (BATCH_PROCESSING_SIZE.load() == 0)
_save_to_file_unlocked(DATABASE_FILENAME)` calls inside the write handlers
(the effect on the store state does not depend on whether the write
succeeded). -/
def saveStateEffect (persist : Bool) (s : Store) : Store :=
  (save_to_file_unlocked persist true true s).1

/-- The dirty bump plus write-through shared by all write handlers:
`dirty_operations_++; if (BATCH_PROCESSING_SIZE.load() == 0) _save_to_file_unlocked(...)`. -/
def markDirty (cfg : Config) (s : Store) : Store :=
  let s1 := { s with dirty := s.dirty + 1 }
  if cfg.batch = 0 then saveStateEffect cfg.persist s1 else s1

/-- Handler results are `(status_code, reply_text)` pairs (`HandlerResult`). -/
def HandlerResult : Type := Nat × String

/-- `_handle_set` from server.cpp.  `now` is the current epoch time in
milliseconds.  On `SET k v EX secs` with a `secs` that `std::stoll` rejects,
the error is returned only after the value has been written into the store
(and the dirty/TTL/eviction steps are skipped). -/
def handle_set (now : Int) (args : List String) (cfg : Config) (s : Store) :
    HandlerResult × Store :=
  if args.length ≠ 2 ∧ args.length ≠ 4 then
    ((400, "-ERR wrong number of arguments for 'SET'. Expected: SET <key> \"<value>\" [EX <seconds>]"), s)
  else
    let key := args.getD 0 ""
    let value := args.getD 1 ""
    let oldSize := match alookup s.kv key with
      | some old => strSize key + strSize old
      | none => 0
    let s1 : Store :=
      { s with kv := ainsert s.kv key value
               memEst := memAdjust s.memEst (strSize key + strSize value) oldSize
               lru := updateLru cfg key s.lru }
    if args.length = 4 then
      let mode := toUpperStr (args.getD 2 "")
      if mode = "EX" then
        match stollOpt (args.getD 3 "") with
        | some secs =>
            let s2 := { s1 with ttl := ainsert s1.ttl key (now + secs * 1000) }
            (((200, "+OK") : HandlerResult), enforceMemoryLimit cfg (markDirty cfg s2))
        | none => ((400, "-ERR value is not an integer"), s1)
      else
        (((200, "+OK") : HandlerResult), enforceMemoryLimit cfg (markDirty cfg s1))
    else
      let s2 := { s1 with ttl := aerase s1.ttl key }
      (((200, "+OK") : HandlerResult), enforceMemoryLimit cfg (markDirty cfg s2))

/-- `_handle_get` from server.cpp.  The handler reads the value under the
shared (read) lock and then re-acquires the exclusive (write) lock for the LRU
promotion; `s1` is the store observed in the read critical section and `s2`
the store observed in the write critical section (a sequential caller passes
the same state twice).  If the key vanished between the two sections the
handler answers `(nil)`, discarding the value it already read. -/
def handle_get (args : List String) (cfg : Config) (s1 s2 : Store) :
    HandlerResult × Store :=
  if args.length ≠ 1 then ((400, "-ERR wrong number of arguments"), s2)
  else
    let key := args.getD 0 ""
    match alookup s1.kv key with
    | none => ((404, "(nil)"), s2)
    | some v =>
        match alookup s2.kv key with
        | none => ((404, "(nil)"), s2)
        | some _ => ((200, v), { s2 with lru := updateLru cfg key s2.lru })

/-- `_handle_update` from server.cpp. -/
def handle_update (args : List String) (cfg : Config) (s : Store) :
    HandlerResult × Store :=
  if args.length ≠ 2 then
    ((400, "-ERR wrong number of arguments for 'UPDATE'. Expected: UPDATE <key> \"<value>\""), s)
  else
    let key := args.getD 0 ""
    let value := args.getD 1 ""
    match alookup s.kv key with
    | none => ((404, "(nil)"), s)
    | some old =>
        let s1 : Store :=
          { s with kv := ainsert s.kv key value
                   memEst := memAdjust s.memEst (strSize key + strSize value)
                     (strSize key + strSize old)
                   lru := updateLru cfg key s.lru
                   dirty := s.dirty + 1 }
        let s2 := enforceMemoryLimit cfg s1
        let s3 := if cfg.batch = 0 then saveStateEffect cfg.persist s2 else s2
        (((200, "+OK") : HandlerResult), s3)

/-- One iteration of the `_handle_del` loop: conditionally destroy one key. -/
def delOne (cfg : Config) (acc : Store × Nat) (key : String) : Store × Nat :=
  let (s, cnt) := acc
  match alookup s.kv key with
  | none => (s, cnt)
  | some v =>
      ({ kv := aerase s.kv key
         ttl := aerase s.ttl key
         lru := if cfg.caching then s.lru.erase key else s.lru
         dirty := s.dirty
         memEst := memAdjust s.memEst 0 (strSize key + strSize v) }, cnt + 1)

/-- `_handle_del` from server.cpp (also backs `JSON.DEL key` with one
argument).  When nothing was deleted the handler returns `"0"` without
touching the dirty counter. -/
def handle_del (args : List String) (cfg : Config) (s : Store) :
    HandlerResult × Store :=
  if args = [] then ((400, "-ERR wrong number of arguments"), s)
  else
    let (s1, cnt) := args.foldl (delOne cfg) (s, 0)
    if cnt = 0 then ((200, "0"), s1)
    else
      let s2 := { s1 with dirty := s1.dirty + cnt }
      let s3 := if cfg.batch = 0 then saveStateEffect cfg.persist s2 else s2
      ((200, toString cnt), s3)

/-- Signed-64-bit wrap of `current_val + amount` (C++ computes it in
`long long`). -/
def i64wrap (x : Int) : Int := (x + 2 ^ 63) % (2 ^ 64) - 2 ^ 63

/-- `_handle_incr_decr` from server.cpp.  An unparsable explicit amount yields
`-ERR not an integer`; an unparsable stored value yields
`-ERR value is not an integer`. -/
def handle_incr_decr (args : List String) (isIncr : Bool) (cfg : Config)
    (s : Store) : HandlerResult × Store :=
  if args = [] ∨ 2 < args.length then ((400, "-ERR wrong number of arguments"), s)
  else
    let key := args.getD 0 ""
    let amountParsed : Option Int :=
      if args.length = 2 then stollOpt (args.getD 1 "") else some 1
    match amountParsed with
    | none => ((400, "-ERR not an integer"), s)
    | some amt0 =>
        let amt := if isIncr then amt0 else -amt0
        let currentAndOld : Option (Int × Nat) :=
          match alookup s.kv key with
          | none => some (0, 0)
          | some v =>
              match stollOpt v with
              | none => none
              | some cur => some (cur, strSize key + strSize v)
        match currentAndOld with
        | none => ((400, "-ERR value is not an integer"), s)
        | some (cur, oldSize) =>
            let newVal := toString (i64wrap (cur + amt))
            let s1 : Store :=
              { s with kv := ainsert s.kv key newVal
                       memEst := memAdjust s.memEst (strSize key + strSize newVal) oldSize
                       lru := updateLru cfg key s.lru
                       dirty := s.dirty + 1 }
            let s2 := enforceMemoryLimit cfg s1
            let s3 := if cfg.batch = 0 then saveStateEffect cfg.persist s2 else s2
            ((200, newVal), s3)

/-- `_handle_expire` from server.cpp. -/
def handle_expire (now : Int) (args : List String) (cfg : Config) (s : Store) :
    HandlerResult × Store :=
  if args.length ≠ 2 then ((400, "-ERR wrong number of arguments"), s)
  else
    let key := args.getD 0 ""
    match alookup s.kv key with
    | none => ((404, "(nil)"), s)
    | some _ =>
        match stollOpt (args.getD 1 "") with
        | none => ((400, "-ERR invalid TTL value"), s)
        | some secs =>
            let s1 := if secs ≤ 0 then { s with ttl := aerase s.ttl key }
                      else { s with ttl := ainsert s.ttl key (now + secs * 1000) }
            let s2 := { s1 with dirty := s1.dirty + 1 }
            let s3 := if cfg.batch = 0 then saveStateEffect cfg.persist s2 else s2
            (((200, "+OK") : HandlerResult), s3)

/-- `_handle_clrdb` from server.cpp. -/
def handle_clrdb (cfg : Config) (s : Store) : HandlerResult × Store :=
  let cleared := s.kv.length
  let s1 : Store := { kv := [], ttl := [], lru := [], dirty := s.dirty + 1, memEst := 0 }
  let s2 := if cfg.batch = 0 then saveStateEffect cfg.persist s1 else s1
  ((200, "+OK " ++ toString cleared ++ " keys cleared."), s2)

/-- `_handle_similar` from server.cpp: count keys beginning with the prefix
(raw byte compare via `rfind(p, 0)`). -/
def handle_similar (args : List String) (s : Store) : HandlerResult × Store :=
  if args.length ≠ 1 then
    ((400, "-ERR wrong number of arguments, expected: SIMILAR <prefix>"), s)
  else
    let p := args.getD 0 ""
    if p = "" then ((400, "-ERR prefix cannot be empty"), s)
    else
      let cnt := (s.kv.filter (fun q => p.data.isPrefixOf q.1.data)).length
      ((200, toString cnt), s)

/-- Removal of one expired key in the TTL sweep of `_background_manager`
(server.cpp): guarded by `kv_store_.count(key)`, subtracts the pair size from
`estimated_memory_usage_`, erases value/TTL/LRU entries and bumps the dirty
counter. -/
def sweepOne (caching : Bool) (s : Store) (key : String) : Store :=
  match alookup s.kv key with
  | none => s
  | some v =>
      { kv := aerase s.kv key
        ttl := aerase s.ttl key
        lru := if caching then s.lru.erase key else s.lru
        dirty := s.dirty + 1
        memEst := memAdjust s.memEst 0 (strSize key + strSize v) }

/-- The TTL-expiry part of one `_background_manager` tick (server.cpp):
collect the keys whose deadline lies strictly in the past and destroy them. -/
def sweepExpired (now : Int) (caching : Bool) (s : Store) : Store :=
  let expired := (s.ttl.filter (fun p => p.2 < now)).map (fun p => p.1)
  expired.foldl (sweepOne caching) s

/-- The batched-save part of one `_background_manager` tick (server.cpp). -/
def backgroundSave (cfg : Config) (s : Store) : Store :=
  if 0 < cfg.batch ∧ cfg.batch ≤ s.dirty then saveStateEffect cfg.persist s else s

/-- `load_from_file` from server.cpp, applied to a parsed snapshot: install the
`store` and `ttl` objects verbatim, walk the value map once to rebuild the
memory estimate and the LRU structures, then enforce the memory limit. -/
def load_from_file (snap : Snapshot) (cfg : Config) : Store :=
  let s0 : Store := { kv := snap.1, ttl := snap.2, lru := [], dirty := 0, memEst := 0 }
  let s1 := snap.1.foldl
    (fun st p => { st with memEst := (st.memEst + (strSize p.1 + strSize p.2)) % U64
                           lru := updateLru cfg p.1 st.lru }) s0
  enforceMemoryLimit cfg s1

/-- The ephemeral benchmark store of `_handle_stress` (server.cpp): a local
`std::unordered_map` that the SET / UPDATE / GET / DEL phases run against.
It never aliases the live store. -/
def stressRun (count : Nat) : List (String × String) :=
  let keys := (List.range count).map (fun i => "stress:" ++ toString i)
  let afterSet := keys.foldl (fun st k => ainsert st k "svalue") []
  let afterUpd := keys.foldl (fun st k => ainsert st k "nvalue") afterSet
  -- the GET phase only reads `afterUpd`
  keys.foldl (fun st k => aerase st k) afterUpd

/-- `_handle_stress` from server.cpp.  The handler validates its argument,
runs the benchmark against the ephemeral map and builds a textual report (the
timing figures in the report are elided here; the claim under examination
concerns only the store state and the snapshot file).  The third component
records every `_save_to_file_unlocked` call the handler performs: server.cpp's
stress handler performs none. -/
def handle_stress (args : List String) (s : Store) :
    HandlerResult × Store × List Snapshot :=
  if args.length ≠ 1 then ((400, "-ERR STRESS requires one argument"), s, [])
  else
    match stoiOpt (args.getD 0 "") with
    | none => ((400, "-ERR invalid number"), s, [])
    | some n =>
        if n ≤ 0 then ((400, "-ERR count must be positive"), s, [])
        else
          let _finalLocal := stressRun n.toNat
          let report := "Stress Test running for " ++ toString n ++ " ops ...\n" ++
            "-------------------------------------------"
          ((200, report), s, [])

/-- Common mutation tail of the JSON write handlers (`_handle_json_update`,
`_handle_json_del` with a WHERE clause, `_handle_json_append`) in server.cpp:
re-serialize the modified document over the present key, adjust the memory
estimate, promote, mark dirty, enforce the memory limit and write through when
batching is off.  The document transformation itself is abstracted: `newDump`
ranges over every string the serializer could produce. -/
def jsonMutateAt (key newDump : String) (cfg : Config) (s : Store) : Store :=
  let oldSize := match alookup s.kv key with
    | some old => strSize key + strSize old
    | none => 0
  let s1 : Store :=
    { s with kv := ainsert s.kv key newDump
             memEst := memAdjust s.memEst (strSize key + strSize newDump) oldSize
             lru := updateLru cfg key s.lru
             dirty := s.dirty + 1 }
  let s2 := enforceMemoryLimit cfg s1
  if cfg.batch = 0 then saveStateEffect cfg.persist s2 else s2

/-- One completed state-changing operation of the engine: a dispatched command
handler, the JSON write handlers (their document transformation abstracted),
the LRU promotion the JSON read handlers perform, one background TTL sweep, or
one background batched save. -/
inductive Step (cfg : Config) : Store → Store → Prop where
  | set (now : Int) (args : List String) (s : Store) :
      Step cfg s (handle_set now args cfg s).2
  | get (args : List String) (s : Store) :
      Step cfg s (handle_get args cfg s s).2
  | update (args : List String) (s : Store) :
      Step cfg s (handle_update args cfg s).2
  | del (args : List String) (s : Store) :
      Step cfg s (handle_del args cfg s).2
  | incrdecr (args : List String) (b : Bool) (s : Store) :
      Step cfg s (handle_incr_decr args b cfg s).2
  | expire (now : Int) (args : List String) (s : Store) :
      Step cfg s (handle_expire now args cfg s).2
  | clrdb (s : Store) : Step cfg s (handle_clrdb cfg s).2
  | jsonWrite (k d : String) (s : Store) (h : (alookup s.kv k).isSome = true) :
      Step cfg s (jsonMutateAt k d cfg s)
  | jsonRead (k : String) (s : Store) :
      Step cfg s { s with lru := updateLru cfg k s.lru }
  | sweep (now : Int) (s : Store) : Step cfg s (sweepExpired now cfg.caching s)
  | bgsave (s : Store) : Step cfg s (backgroundSave cfg s)

/-- The observable states of a run: the empty boot state, a state produced by
loading a snapshot this engine previously saved, and anything a completed
operation produces from an observable state. -/
inductive Reachable (cfg : Config) : Store → Prop where
  | init : Reachable cfg emptyStore
  | loadSnap (s : Store) (h : Reachable cfg s) :
      Reachable cfg (load_from_file (s.kv, s.ttl) cfg)
  | step (s t : Store) (h : Reachable cfg s) (hs : Step cfg s t) : Reachable cfg t

/-- The invariant of claim C7: every key in the TTL map appears in the value
map. -/
def TtlInv (s : Store) : Prop :=
  ∀ k : String, (alookup s.ttl k).isSome = true → (alookup s.kv k).isSome = true

/-- The induction invariant for C7: the TTL-subset property together with the
key-uniqueness an `std::unordered_map` guarantees for the TTL map (needed so
that erasing a key really removes its only binding). -/
def GoodT (s : Store) : Prop := TtlInv s ∧ (s.ttl.map Prod.fst).Nodup

/-! ### Command-line parser (`parse_command_line` in server.cpp).

Positions are `Nat` indices into the line's character list; `std::string::npos`
results are `Option.none`.  Out-of-range `operator[]` accesses that the source
can only reach with an in-range index are modelled by `charAt`, which returns
NUL out of range. -/

def charAt (cs : List Char) (i : Nat) : Char := cs.getD i (Char.ofNat 0)

/-- `line.find(c, i)` (index of the first occurrence of `c` at or after `i`). -/
def findCharAux (cs : List Char) (c : Char) (i : Nat) : Option Nat :=
  match cs with
  | [] => none
  | x :: rest => if x = c then some i else findCharAux rest c (i + 1)

def findChar (cs : List Char) (c : Char) (i : Nat) : Option Nat :=
  findCharAux (cs.drop i) c i

/-- `line.find_first_not_of(set, i)`. -/
def findNotOfAux (cs : List Char) (set : List Char) (i : Nat) : Option Nat :=
  match cs with
  | [] => none
  | x :: rest => if set.contains x then findNotOfAux rest set (i + 1) else some i

def findNotOf (cs : List Char) (set : List Char) (i : Nat) : Option Nat :=
  findNotOfAux (cs.drop i) set i

/-- does `pat` occur in `cs` starting at index `i`? -/
def matchesAt (cs pat : List Char) (i : Nat) : Bool :=
  pat.isPrefixOf (cs.drop i)

/-- `line.rfind(pat)`: the largest starting index of an occurrence of `pat`. -/
def rfindStr (cs pat : List Char) : Option Nat :=
  ((List.range (cs.length + 1)).filter (fun i => matchesAt cs pat i)).getLast?

/-- `line.substr(start, len)`; like `substr`, a `len` past the end (including
the huge values `size_t` underflow produces) is clamped to the rest. -/
def substr (cs : List Char) (start len : Nat) : List Char :=
  (cs.drop start).take len

/-- The token loop of the general (non-strict-quote) parse path: one character
at a time, with the current token and the active quote character.  The
`c == quote_type` comparison in the source also fires for a NUL byte while no
quote is active (`quote_type` is the integer 0), silently dropping the NUL. -/
def tokenize (cs : List Char) (cur : List Char) (quote : Option Char) :
    List (List Char) :=
  match cs with
  | [] => if cur = [] then [] else [cur]
  | c :: rest =>
      match quote with
      | none =>
          if c = '\'' ∨ c = '"' then
            if cur = [] then tokenize rest [] (some c)
            else cur :: tokenize rest [] (some c)
          else if c = Char.ofNat 0 then tokenize rest cur none
          else if isSpaceChar c then
            if cur = [] then tokenize rest [] none
            else cur :: tokenize rest [] none
          else tokenize rest (cur ++ [c]) none
      | some q =>
          if c = q then tokenize rest cur none
          else tokenize rest (cur ++ [c]) (some q)

/-- The WHERE/SET keyword canonicalization applied to the arguments of
JSON.UPDATE and JSON.GET. -/
def canonKeyword (s : List Char) : List Char :=
  let lower := s.map toLowerChar
  if lower = "where".data then "WHERE".data
  else if lower = "set".data then "SET".data
  else s

/-- `parse_command_line` from server.cpp, on the line's characters. -/
def parseLine (line : List Char) : List (List Char) :=
  if line = [] then []
  else
    let cmdEnd := findChar line ' ' 0
    let command := match cmdEnd with
      | none => line
      | some e => substr line 0 e
    let commandUpper := command.map toUpperChar
    let requiredQuote : Option Char :=
      if commandUpper = "SET".data ∨ commandUpper = "UPDATE".data then some '"'
      else if commandUpper = "JSON.SET".data ∨ commandUpper = "JSON.APPEND".data then
        some '\''
      else none
    match requiredQuote with
    | some q =>
        match cmdEnd with
        | none => [command]
        | some ce =>
            let keyStart := ce + 1
            match findChar line ' ' keyStart with
            | none => [command, line.drop keyStart]
            | some vdp =>
                let key := substr line keyStart (vdp - keyStart)
                let valueStart := findNotOf line [' ', '\t'] vdp
                let elseBranch : List (List Char) :=
                  match valueStart with
                  | none => [command]
                  | some vs =>
                      if charAt line vs ≠ q ∨ line.getLastD (Char.ofNat 0) ≠ q then
                        [command]
                      else [command, key, substr line (vs + 1) (usub (line.length - vs) 2)]
                match rfindStr line " EX ".data with
                | some ep =>
                    if vdp < ep then
                      -- reachability of this branch forces `valueStart` to be set
                      match valueStart with
                      | none => [command]
                      | some vs =>
                          if charAt line vs ≠ q ∨ ep < vs ∨ charAt line (ep - 1) ≠ q then
                            [command]
                          else
                            [command, key, substr line (vs + 1) (usub (ep - vs) 2),
                             "EX".data, line.drop (ep + 4)]
                    else elseBranch
                | none => elseBranch
    | none =>
        -- general path; for `cmd_end == npos` the `size_t` start `cmd_end + 1`
        -- wraps around to 0 and the loop re-scans the whole line
        let tokStart := match cmdEnd with
          | none => 0
          | some e => e + 1
        let toks := tokenize (line.drop tokStart) [] none
        let toks' :=
          if commandUpper = "JSON.UPDATE".data ∨ commandUpper = "JSON.GET".data then
            toks.map canonKeyword
          else toks
        command :: toks'

def parse_command_line (line : String) : List String :=
  (parseLine line.data).map (fun cs => ⟨cs⟩)

/-- The worker dispatch table restricted to the commands this development
models; as in `_worker_function`, anything else is answered with the
unknown-command error (the JSON.\*, TTL, STATS, BATCH and DEBUG handlers are
outside the modelled fragment). -/
def dispatch (now : Int) (cmd : String) (args : List String) (cfg : Config)
    (s : Store) : HandlerResult × Store :=
  if cmd = "SET" then handle_set now args cfg s
  else if cmd = "GET" then handle_get args cfg s s
  else if cmd = "UPDATE" then handle_update args cfg s
  else if cmd = "DEL" then handle_del args cfg s
  else if cmd = "INCR" then handle_incr_decr args true cfg s
  else if cmd = "DECR" then handle_incr_decr args false cfg s
  else if cmd = "EXPIRE" then handle_expire now args cfg s
  else if cmd = "CLRDB" then handle_clrdb cfg s
  else if cmd = "SIMILAR" then handle_similar args s
  else if cmd = "STRESS" then
    let r := handle_stress args s
    (r.1, r.2.1)
  else ((400, "-ERR unknown command '" ++ cmd ++ "'"), s)

/-- One command round of `handle_client` (server.cpp) after a frame has been
received: parse, reject an empty argv, answer QUIT/PING inline, otherwise
uppercase the command name, drop it from the argv and dispatch. -/
def execLine (now : Int) (line : String) (cfg : Config) (s : Store) :
    HandlerResult × Store :=
  match parse_command_line line with
  | [] => ((400, "-ERR empty command"), s)
  | arg0 :: rest =>
      let cmd := toUpperStr arg0
      if cmd = "QUIT" then ((200, "+OK Bye"), s)
      else if cmd = "PING" then ((200, "+PONG"), s)
      else dispatch now cmd rest cfg s

/-! ### nuke-wire framed transport (server.cpp).

The peer's byte stream is a `List Nat`; a short read (connection closed before
`len` bytes arrived) is the stream running out. -/

def MAX_PAYLOAD_SIZE : Nat := 1024 * 1024 * 1024

/-- `recv_all(sock, buf, len)`: exactly `len` bytes or failure; on success
also yields the unread remainder of the stream. -/
def recv_all (stream : List Nat) (len : Nat) : Option (List Nat × List Nat) :=
  if stream.length < len then none else some (stream.take len, stream.drop len)

/-- big-endian interpretation of the 8 header bytes (`nuke_ntohll` applied to
the raw buffer). -/
def beVal (bs : List Nat) : Nat := bs.foldl (fun acc b => acc * 256 + b % 256) 0

/-- `recv_message` from server.cpp: 8-byte big-endian length header, the
oversize check against `MAX_PAYLOAD_SIZE`, the explicit empty-message case,
then exactly `len` body bytes.  `none` is the `return false` path — the caller
closes the connection. -/
def recv_message (stream : List Nat) : Option (List Nat × List Nat) :=
  match recv_all stream 8 with
  | none => none
  | some (hdr, rest) =>
      let msgLen := beVal hdr
      if MAX_PAYLOAD_SIZE < msgLen then none
      else if msgLen = 0 then some ([], rest)
      else recv_all rest msgLen

/-- `send_message`: the frame written for a reply body. -/
def u64be (n : Nat) : List Nat :=
  [n / 256 ^ 7 % 256, n / 256 ^ 6 % 256, n / 256 ^ 5 % 256, n / 256 ^ 4 % 256,
   n / 256 ^ 3 % 256, n / 256 ^ 2 % 256, n / 256 % 256, n % 256]

def sendFrame (body : List Nat) : List Nat := u64be body.length ++ body

/-- The bytes one round of the `handle_client` loop writes back, for an
arbitrary reply function: when `recv_message` fails the loop breaks and
nothing is sent; otherwise the reply for the received body is framed and
sent. -/
def clientRoundOutput (replyFor : List Nat → List Nat) (stream : List Nat) :
    List Nat :=
  match recv_message stream with
  | none => []
  | some (msg, _) => sendFrame (replyFor msg)

/-! ### JSON values and the whole-word search (server.cpp).

`nlohmann::ordered_json` values, with strings as character lists; numeric
payloads are irrelevant to the search and carried as `Int`. -/

inductive Jx where
  | jnull : Jx
  | jbool : Bool → Jx
  | jnum : Int → Jx
  | jstr : List Char → Jx
  | jarr : List Jx → Jx
  | jobj : List (List Char × Jx) → Jx
deriving Repr

/-- the `case_insensitive_equals` predicate of `json_contains_word`. -/
def ciEq (a b : Char) : Bool := toLowerChar a = toLowerChar b

/-- is `term` a case-insensitive prefix of `cs`? (`std::equal`-style walk). -/
def ciPref : List Char → List Char → Bool
  | [], _ => true
  | _ :: _, [] => false
  | a :: as_, b :: bs => ciEq a b && ciPref as_ bs

/-- case-insensitive occurrence of `term` at index `i` of `text`
(`std::search` only reports occurrences that fit before `text.end()`, which
`ciPref` enforces by running out of `text`). -/
def ciMatchAt (text term : List Char) (i : Nat) : Bool :=
  ciPref term (text.drop i)

/-- The two boundary checks of `json_contains_word`: each side of the
occurrence is a string edge or a word delimiter. -/
def boundsOk (text term : List Char) (pos : Nat) : Bool :=
  (pos = 0 || is_word_delimiter (charAt text (pos - 1))) &&
  (pos + term.length = text.length || is_word_delimiter (charAt text (pos + term.length)))

/-- The `while (it != text.end())` loop of the string case of
`json_contains_word`, with the inner `std::search` inlined: the search skips
the positions where no case-insensitive occurrence starts, returns `end` (here:
`false`, the loop's break) when the remaining window is too short, and the
loop re-enters one past an occurrence whose boundaries are not word
boundaries.  Stepping through the skipped positions one at a time returns the
same answer on every input as searching then jumping. -/
def wordScan (text term : List Char) (i : Nat) : Bool :=
  if i < text.length then
    if text.length < i + term.length then false
    else if ciMatchAt text term i then
      if boundsOk text term i then true else wordScan text term (i + 1)
    else wordScan text term (i + 1)
  else false
termination_by text.length - i

/-- The string case of `json_contains_word` (server.cpp), including the
initial length shortcut. -/
def containsWordStr (text term : List Char) : Bool :=
  if text.length < term.length then false else wordScan text term 0

mutual

/-- `json_contains_word` from server.cpp: strings are scanned, objects and
arrays recurse, everything else never matches. -/
def json_contains_word (j : Jx) (term : List Char) : Bool :=
  match j with
  | .jstr s => containsWordStr s term
  | .jobj fields => jcwFields fields term
  | .jarr elems => jcwElems elems term
  | _ => false

def jcwFields (fields : List (List Char × Jx)) (term : List Char) : Bool :=
  match fields with
  | [] => false
  | f :: rest => json_contains_word f.2 term || jcwFields rest term

def jcwElems (elems : List Jx) (term : List Char) : Bool :=
  match elems with
  | [] => false
  | e :: rest => json_contains_word e term || jcwElems rest term

end

mutual

/-- All strings occurring in a JSON document, in document order. -/
def jstrings (j : Jx) : List (List Char) :=
  match j with
  | .jstr s => [s]
  | .jobj fields => jstringsFields fields
  | .jarr elems => jstringsElems elems
  | _ => []

def jstringsFields (fields : List (List Char × Jx)) : List (List Char) :=
  match fields with
  | [] => []
  | f :: rest => jstrings f.2 ++ jstringsFields rest

def jstringsElems (elems : List Jx) : List (List Char) :=
  match elems with
  | [] => []
  | e :: rest => jstrings e ++ jstringsElems rest

end

/-- The claim's wording for one string: the term occurs as a case-insensitive
substring whose left and right boundaries are each either the string edge or a
non-alphanumeric byte. -/
def SpecWordOccur (text term : List Char) (pos : Nat) : Prop :=
  pos + term.length ≤ text.length ∧
  ((text.drop pos).take term.length).map toLowerChar = term.map toLowerChar ∧
  (pos = 0 ∨ is_word_delimiter (charAt text (pos - 1)) = true) ∧
  (pos + term.length = text.length ∨
    is_word_delimiter (charAt text (pos + term.length)) = true)

/-- The claim's wording for a document: some string in it (recursing through
objects and arrays) contains the term as a whole word. -/
def SpecContainsWord (j : Jx) (term : List Char) : Prop :=
  ∃ s ∈ jstrings j, ∃ pos, SpecWordOccur s term pos

/-! ## Helper lemmas about the association-list primitives -/

theorem alookup_ainsert {α : Type} (l : List (String × α)) (k k' : String) (v : α) :
    alookup (ainsert l k v) k' = if k = k' then some v else alookup l k' := by
  induction l with
  | nil => simp [ainsert, alookup]
  | cons p rest ih =>
    obtain ⟨pk, pv⟩ := p
    by_cases h1 : pk = k
    · subst h1
      by_cases h2 : pk = k' <;> simp [ainsert, alookup, h2]
    · by_cases h2 : pk = k'
      · subst h2
        have hkk : ¬k = pk := fun h => h1 h.symm
        simp [ainsert, alookup, h1, hkk]
      · simp [ainsert, alookup, h1, h2, ih]

theorem alookup_aerase {α : Type} (l : List (String × α)) (k k' : String)
    (hne : k ≠ k') : alookup (aerase l k) k' = alookup l k' := by
  induction l with
  | nil => simp [aerase]
  | cons p rest ih =>
    obtain ⟨pk, pv⟩ := p
    by_cases h1 : pk = k
    · subst h1
      have hkk : ¬pk = k' := fun h => hne (h ▸ rfl)
      simp [aerase, alookup, hkk]
    · by_cases h2 : pk = k'
      · subst h2
        simp [aerase, alookup, h1]
      · simp [aerase, alookup, h1, h2, ih]

theorem alookup_none_of_not_mem {α : Type} (l : List (String × α)) (k : String)
    (h : k ∉ l.map Prod.fst) : alookup l k = none := by
  induction l with
  | nil => simp [alookup]
  | cons p rest ih =>
    simp only [List.map_cons, List.mem_cons, not_or] at h
    have hne : ¬p.1 = k := fun he => h.1 he.symm
    obtain ⟨pk, pv⟩ := p
    simp only [alookup]
    rw [if_neg hne]
    exact ih h.2

theorem alookup_aerase_self {α : Type} (l : List (String × α)) (k : String)
    (h : (l.map Prod.fst).Nodup) : alookup (aerase l k) k = none := by
  induction l with
  | nil => simp [aerase, alookup]
  | cons p rest ih =>
    obtain ⟨pk, pv⟩ := p
    simp only [List.map_cons, List.nodup_cons] at h
    by_cases h1 : pk = k
    · subst h1
      simp only [aerase, if_true, eq_self_iff_true]
      exact alookup_none_of_not_mem rest pk h.1
    · simp only [aerase]
      rw [if_neg h1]
      simp only [alookup]
      rw [if_neg h1]
      exact ih h.2

theorem keys_ainsert_sub {α : Type} (l : List (String × α)) (k : String) (v : α) :
    ∀ x ∈ (ainsert l k v).map Prod.fst, x = k ∨ x ∈ l.map Prod.fst := by
  induction l with
  | nil =>
    intro x hx
    simp only [ainsert, List.map_cons, List.map_nil, List.mem_singleton] at hx
    exact Or.inl hx
  | cons p rest ih =>
    obtain ⟨pk, pv⟩ := p
    intro x hx
    by_cases h1 : pk = k
    · rw [show ainsert ((pk, pv) :: rest) k v = (k, v) :: rest by
        simp only [ainsert]; rw [if_pos h1]] at hx
      simp only [List.map_cons, List.mem_cons] at hx
      rcases hx with hx | hx
      · exact Or.inl hx
      · exact Or.inr (by simp only [List.map_cons, List.mem_cons]; exact Or.inr hx)
    · rw [show ainsert ((pk, pv) :: rest) k v = (pk, pv) :: ainsert rest k v by
        simp only [ainsert]; rw [if_neg h1]] at hx
      simp only [List.map_cons, List.mem_cons] at hx
      rcases hx with hx | hx
      · exact Or.inr (by simp only [List.map_cons, List.mem_cons]; exact Or.inl hx)
      · rcases ih x hx with hx' | hx'
        · exact Or.inl hx'
        · exact Or.inr (by simp only [List.map_cons, List.mem_cons]; exact Or.inr hx')

theorem nodup_keys_ainsert {α : Type} (l : List (String × α)) (k : String) (v : α)
    (h : (l.map Prod.fst).Nodup) : ((ainsert l k v).map Prod.fst).Nodup := by
  induction l with
  | nil => simp [ainsert]
  | cons p rest ih =>
    obtain ⟨pk, pv⟩ := p
    simp only [List.map_cons, List.nodup_cons] at h
    by_cases h1 : pk = k
    · rw [show ainsert ((pk, pv) :: rest) k v = (k, v) :: rest by
        simp only [ainsert]; rw [if_pos h1]]
      simp only [List.map_cons, List.nodup_cons]
      exact ⟨h1 ▸ h.1, h.2⟩
    · rw [show ainsert ((pk, pv) :: rest) k v = (pk, pv) :: ainsert rest k v by
        simp only [ainsert]; rw [if_neg h1]]
      simp only [List.map_cons, List.nodup_cons]
      refine ⟨fun hc => ?_, ih h.2⟩
      rcases keys_ainsert_sub rest k v pk hc with he | he
      · exact h1 he
      · exact h.1 he

theorem keys_aerase_sub {α : Type} (l : List (String × α)) (k : String) :
    ∀ x ∈ (aerase l k).map Prod.fst, x ∈ l.map Prod.fst := by
  induction l with
  | nil => simp [aerase]
  | cons p rest ih =>
    obtain ⟨pk, pv⟩ := p
    intro x hx
    by_cases h1 : pk = k
    · rw [show aerase ((pk, pv) :: rest) k = rest by
        simp only [aerase]; rw [if_pos h1]] at hx
      simp only [List.map_cons, List.mem_cons]
      exact Or.inr hx
    · rw [show aerase ((pk, pv) :: rest) k = (pk, pv) :: aerase rest k by
        simp only [aerase]; rw [if_neg h1]] at hx
      simp only [List.map_cons, List.mem_cons] at hx ⊢
      rcases hx with hx | hx
      · exact Or.inl hx
      · exact Or.inr (ih x hx)

theorem nodup_keys_aerase {α : Type} (l : List (String × α)) (k : String)
    (h : (l.map Prod.fst).Nodup) : ((aerase l k).map Prod.fst).Nodup := by
  induction l with
  | nil => simp [aerase]
  | cons p rest ih =>
    obtain ⟨pk, pv⟩ := p
    simp only [List.map_cons, List.nodup_cons] at h
    by_cases h1 : pk = k
    · rw [show aerase ((pk, pv) :: rest) k = rest by
        simp only [aerase]; rw [if_pos h1]]
      exact h.2
    · rw [show aerase ((pk, pv) :: rest) k = (pk, pv) :: aerase rest k by
        simp only [aerase]; rw [if_neg h1]]
      simp only [List.map_cons, List.nodup_cons]
      exact ⟨fun hc => h.1 (keys_aerase_sub rest k pk hc), ih h.2⟩

/-! ## Field-preservation lemmas for the store plumbing -/

@[simp] theorem saveState_kv (p : Bool) (s : Store) : (saveStateEffect p s).kv = s.kv := by
  unfold saveStateEffect save_to_file_unlocked
  cases p <;> simp

@[simp] theorem saveState_ttl (p : Bool) (s : Store) : (saveStateEffect p s).ttl = s.ttl := by
  unfold saveStateEffect save_to_file_unlocked
  cases p <;> simp

@[simp] theorem saveState_lru (p : Bool) (s : Store) : (saveStateEffect p s).lru = s.lru := by
  unfold saveStateEffect save_to_file_unlocked
  cases p <;> simp

@[simp] theorem saveState_memEst (p : Bool) (s : Store) :
    (saveStateEffect p s).memEst = s.memEst := by
  unfold saveStateEffect save_to_file_unlocked
  cases p <;> simp

@[simp] theorem markDirty_kv (cfg : Config) (s : Store) : (markDirty cfg s).kv = s.kv := by
  unfold markDirty
  split <;> simp

@[simp] theorem markDirty_ttl (cfg : Config) (s : Store) : (markDirty cfg s).ttl = s.ttl := by
  unfold markDirty
  split <;> simp

theorem updateLru_zero (cfg : Config) (h : cfg.maxMem = 0) (k : String) (l : List String) :
    updateLru cfg k l = l := by
  unfold updateLru
  simp [h]

@[simp] theorem ite_store_kv (c : Prop) [Decidable c] (a b : Store) :
    (if c then a else b).kv = if c then a.kv else b.kv := by
  split <;> rfl

@[simp] theorem ite_store_ttl (c : Prop) [Decidable c] (a b : Store) :
    (if c then a else b).ttl = if c then a.ttl else b.ttl := by
  split <;> rfl

theorem enforceMemoryLimit_zero (cfg : Config) (h : cfg.maxMem = 0) (s : Store) :
    enforceMemoryLimit cfg s = s := by
  unfold enforceMemoryLimit
  simp [h]

/-! ## Preservation of the C7 invariant -/

theorem goodT_fields (s t : Store) (hkv : t.kv = s.kv) (httl : t.ttl = s.ttl)
    (h : GoodT s) : GoodT t := by
  refine ⟨fun k hk => ?_, by rw [httl]; exact h.2⟩
  rw [hkv]
  exact h.1 k (by rwa [httl] at hk)

theorem goodT_eraseBoth (s t : Store) (k : String)
    (hkv : t.kv = aerase s.kv k) (httl : t.ttl = aerase s.ttl k)
    (h : GoodT s) : GoodT t := by
  refine ⟨fun k' hk' => ?_, by rw [httl]; exact nodup_keys_aerase _ _ h.2⟩
  rw [httl] at hk'
  by_cases he : k = k'
  · subst he
    rw [alookup_aerase_self _ _ h.2] at hk'
    simp at hk'
  · rw [alookup_aerase _ _ _ he] at hk'
    rw [hkv, alookup_aerase _ _ _ he]
    exact h.1 k' hk'

theorem goodT_insertKv (s t : Store) (k : String) (v : String)
    (hkv : t.kv = ainsert s.kv k v) (httl : t.ttl = s.ttl)
    (h : GoodT s) : GoodT t := by
  refine ⟨fun k' hk' => ?_, by rw [httl]; exact h.2⟩
  rw [httl] at hk'
  rw [hkv, alookup_ainsert]
  by_cases he : k = k'
  · simp [he]
  · rw [if_neg he]
    exact h.1 k' hk'

theorem goodT_insertBoth (s t : Store) (k : String) (v : String) (d : Int)
    (hkv : t.kv = ainsert s.kv k v) (httl : t.ttl = ainsert s.ttl k d)
    (h : GoodT s) : GoodT t := by
  refine ⟨fun k' hk' => ?_, by rw [httl]; exact nodup_keys_ainsert _ _ _ h.2⟩
  rw [httl, alookup_ainsert] at hk'
  rw [hkv, alookup_ainsert]
  by_cases he : k = k'
  · simp [he]
  · rw [if_neg he] at hk' ⊢
    exact h.1 k' hk'

theorem goodT_insertKvEraseTtl (s t : Store) (k : String) (v : String)
    (hkv : t.kv = ainsert s.kv k v) (httl : t.ttl = aerase s.ttl k)
    (h : GoodT s) : GoodT t := by
  refine ⟨fun k' hk' => ?_, by rw [httl]; exact nodup_keys_aerase _ _ h.2⟩
  rw [httl] at hk'
  by_cases he : k = k'
  · subst he
    rw [alookup_aerase_self _ _ h.2] at hk'
    simp at hk'
  · rw [alookup_aerase _ _ _ he] at hk'
    rw [hkv, alookup_ainsert, if_neg he]
    exact h.1 k' hk'

theorem goodT_insertTtl (s t : Store) (k : String) (d : Int)
    (hkv : t.kv = s.kv) (httl : t.ttl = ainsert s.ttl k d)
    (hpres : (alookup s.kv k).isSome = true) (h : GoodT s) : GoodT t := by
  refine ⟨fun k' hk' => ?_, by rw [httl]; exact nodup_keys_ainsert _ _ _ h.2⟩
  rw [httl, alookup_ainsert] at hk'
  rw [hkv]
  by_cases he : k = k'
  · subst he
    exact hpres
  · rw [if_neg he] at hk'
    exact h.1 k' hk'

theorem goodT_eraseTtl (s t : Store) (k : String)
    (hkv : t.kv = s.kv) (httl : t.ttl = aerase s.ttl k)
    (h : GoodT s) : GoodT t := by
  refine ⟨fun k' hk' => ?_, by rw [httl]; exact nodup_keys_aerase _ _ h.2⟩
  rw [httl] at hk'
  by_cases he : k = k'
  · subst he
    rw [alookup_aerase_self _ _ h.2] at hk'
    simp at hk'
  · rw [alookup_aerase _ _ _ he] at hk'
    rw [hkv]
    exact h.1 k' hk'

theorem goodT_evictOne (s : Store) (h : GoodT s) : GoodT (evictOne s) :=
  goodT_eraseBoth s (evictOne s) (s.lru.getLastD "") rfl rfl h

theorem goodT_enforceLoop (maxMem fuel : Nat) (s : Store) (h : GoodT s) :
    GoodT (enforceLoop maxMem fuel s) := by
  induction fuel generalizing s with
  | zero => exact h
  | succ n ih =>
      unfold enforceLoop
      split
      · exact ih _ (goodT_evictOne s h)
      · exact h

theorem goodT_enforce (cfg : Config) (s : Store) (h : GoodT s) :
    GoodT (enforceMemoryLimit cfg s) := by
  unfold enforceMemoryLimit
  split
  · exact h
  · exact goodT_enforceLoop _ _ _ h

theorem goodT_saveState (p : Bool) (s : Store) (h : GoodT s) :
    GoodT (saveStateEffect p s) :=
  goodT_fields s _ (saveState_kv p s) (saveState_ttl p s) h

theorem goodT_markDirty (cfg : Config) (s : Store) (h : GoodT s) :
    GoodT (markDirty cfg s) :=
  goodT_fields s _ (markDirty_kv cfg s) (markDirty_ttl cfg s) h

theorem goodT_batchIte (cfg : Config) (s : Store) (h : GoodT s) :
    GoodT (if cfg.batch = 0 then saveStateEffect cfg.persist s else s) := by
  split
  · exact goodT_saveState _ _ h
  · exact h

theorem goodT_handle_set (now : Int) (args : List String) (cfg : Config) (s : Store)
    (h : GoodT s) : GoodT (handle_set now args cfg s).2 := by
  unfold handle_set
  dsimp only
  split
  · exact h
  · split
    · split
      · split
        · exact goodT_enforce _ _ (goodT_markDirty _ _
            (goodT_insertBoth s _ _ _ _ rfl rfl h))
        · exact goodT_insertKv s _ _ _ rfl rfl h
      · exact goodT_enforce _ _ (goodT_markDirty _ _
          (goodT_insertKv s _ _ _ rfl rfl h))
    · exact goodT_enforce _ _ (goodT_markDirty _ _
        (goodT_insertKvEraseTtl s _ _ _ rfl rfl h))

theorem goodT_handle_get (args : List String) (cfg : Config) (s : Store)
    (h : GoodT s) : GoodT (handle_get args cfg s s).2 := by
  unfold handle_get
  dsimp only
  split
  · exact h
  · split
    · exact h
    · split
      · exact h
      · exact goodT_fields s _ rfl rfl h

theorem goodT_handle_update (args : List String) (cfg : Config) (s : Store)
    (h : GoodT s) : GoodT (handle_update args cfg s).2 := by
  unfold handle_update
  dsimp only
  split
  · exact h
  · split
    · exact h
    · exact goodT_batchIte _ _ (goodT_enforce _ _ (goodT_insertKv s _ _ _ rfl rfl h))

theorem goodT_delOne (cfg : Config) (acc : Store × Nat) (key : String)
    (h : GoodT acc.1) : GoodT (delOne cfg acc key).1 := by
  unfold delOne
  dsimp only
  split
  · exact h
  · exact goodT_eraseBoth acc.1 _ key rfl rfl h

theorem goodT_delFold (cfg : Config) (args : List String) :
    ∀ acc : Store × Nat, GoodT acc.1 → GoodT (args.foldl (delOne cfg) acc).1 := by
  induction args with
  | nil => intro acc h; exact h
  | cons a rest ih =>
      intro acc h
      exact ih (delOne cfg acc a) (goodT_delOne cfg acc a h)

theorem goodT_handle_del (args : List String) (cfg : Config) (s : Store)
    (h : GoodT s) : GoodT (handle_del args cfg s).2 := by
  unfold handle_del
  dsimp only
  split
  · exact h
  · have hf := goodT_delFold cfg args (s, 0) h
    split
    · exact hf
    · exact goodT_batchIte _ _ (goodT_fields _ _ rfl rfl hf)

theorem goodT_handle_incr_decr (args : List String) (b : Bool) (cfg : Config)
    (s : Store) (h : GoodT s) : GoodT (handle_incr_decr args b cfg s).2 := by
  unfold handle_incr_decr
  dsimp only
  repeat' split
  all_goals
    first
      | exact h
      | exact goodT_saveState _ _ (goodT_enforce _ _ (goodT_insertKv s _ _ _ rfl rfl h))
      | exact goodT_enforce _ _ (goodT_insertKv s _ _ _ rfl rfl h)

theorem goodT_handle_expire (now : Int) (args : List String) (cfg : Config)
    (s : Store) (h : GoodT s) : GoodT (handle_expire now args cfg s).2 := by
  unfold handle_expire
  dsimp only
  split
  · exact h
  · split
    · exact h
    · next v hv =>
        split
        · exact h
        · repeat' split
          all_goals
            first
              | exact goodT_saveState _ _ (goodT_eraseTtl s _ _ rfl rfl h)
              | exact goodT_eraseTtl s _ _ rfl rfl h
              | exact goodT_saveState _ _
                  (goodT_insertTtl s _ _ _ rfl rfl (by rw [hv]; rfl) h)
              | exact goodT_insertTtl s _ _ _ rfl rfl (by rw [hv]; rfl) h

theorem goodT_handle_clrdb (cfg : Config) (s : Store) :
    GoodT (handle_clrdb cfg s).2 := by
  unfold handle_clrdb
  dsimp only
  refine goodT_batchIte _ _ ⟨fun k hk => ?_, by simp⟩
  simp [alookup] at hk

theorem goodT_jsonMutateAt (k d : String) (cfg : Config) (s : Store)
    (h : GoodT s) : GoodT (jsonMutateAt k d cfg s) := by
  unfold jsonMutateAt
  exact goodT_batchIte _ _ (goodT_enforce _ _ (goodT_insertKv s _ _ _ rfl rfl h))

theorem goodT_sweepOne (caching : Bool) (s : Store) (key : String)
    (h : GoodT s) : GoodT (sweepOne caching s key) := by
  unfold sweepOne
  split
  · exact h
  · exact goodT_eraseBoth s _ key rfl rfl h

theorem goodT_sweepFold (caching : Bool) (keys : List String) :
    ∀ s : Store, GoodT s → GoodT (keys.foldl (sweepOne caching) s) := by
  induction keys with
  | nil => intro s h; exact h
  | cons a rest ih => intro s h; exact ih _ (goodT_sweepOne caching s a h)

theorem goodT_sweepExpired (now : Int) (caching : Bool) (s : Store)
    (h : GoodT s) : GoodT (sweepExpired now caching s) := by
  unfold sweepExpired
  exact goodT_sweepFold caching _ s h

theorem goodT_backgroundSave (cfg : Config) (s : Store) (h : GoodT s) :
    GoodT (backgroundSave cfg s) := by
  unfold backgroundSave
  split
  · exact goodT_saveState _ _ h
  · exact h

theorem load_fold_kv_ttl (cfg : Config) (l : List (String × String)) :
    ∀ s0 : Store,
      (l.foldl (fun st p => { st with
          memEst := (st.memEst + (strSize p.1 + strSize p.2)) % U64
          lru := updateLru cfg p.1 st.lru }) s0).kv = s0.kv ∧
      (l.foldl (fun st p => { st with
          memEst := (st.memEst + (strSize p.1 + strSize p.2)) % U64
          lru := updateLru cfg p.1 st.lru }) s0).ttl = s0.ttl := by
  induction l with
  | nil => intro s0; exact ⟨rfl, rfl⟩
  | cons p rest ih =>
      intro s0
      exact ih _

theorem goodT_load (cfg : Config) (s : Store) (h : GoodT s) :
    GoodT (load_from_file (s.kv, s.ttl) cfg) := by
  unfold load_from_file
  dsimp only
  apply goodT_enforce
  obtain ⟨hkv, httl⟩ := load_fold_kv_ttl cfg s.kv
    ⟨s.kv, s.ttl, [], 0, 0⟩
  exact goodT_fields s _ (by rw [hkv]) (by rw [httl]) h

theorem goodT_step (cfg : Config) (s t : Store) (hs : Step cfg s t)
    (h : GoodT s) : GoodT t := by
  cases hs with
  | set now args s => exact goodT_handle_set now args cfg s h
  | get args s => exact goodT_handle_get args cfg s h
  | update args s => exact goodT_handle_update args cfg s h
  | del args s => exact goodT_handle_del args cfg s h
  | incrdecr args b s => exact goodT_handle_incr_decr args b cfg s h
  | expire now args s => exact goodT_handle_expire now args cfg s h
  | clrdb s => exact goodT_handle_clrdb cfg s
  | jsonWrite k d s hk => exact goodT_jsonMutateAt k d cfg s h
  | jsonRead k s => exact goodT_fields s _ rfl rfl h
  | sweep now s => exact goodT_sweepExpired now cfg.caching s h
  | bgsave s => exact goodT_backgroundSave cfg s h

theorem reachable_goodT (cfg : Config) (s : Store) (h : Reachable cfg s) :
    GoodT s := by
  induction h with
  | init => exact ⟨fun k hk => by simp [emptyStore, alookup] at hk, by simp [emptyStore]⟩
  | loadSnap s hr ih => exact goodT_load cfg s ih
  | step s t hr hs ih => exact goodT_step cfg s t hs ih

/-! ## The word-search loop versus its declarative description -/

theorem ciPref_iff (term cs : List Char) :
    ciPref term cs = true ↔
      term.length ≤ cs.length ∧
        (cs.take term.length).map toLowerChar = term.map toLowerChar := by
  induction term generalizing cs with
  | nil => simp [ciPref]
  | cons a as ih =>
      cases cs with
      | nil => simp [ciPref]
      | cons b bs =>
          simp only [ciPref, Bool.and_eq_true, decide_eq_true_eq, ciEq, ih,
            List.length_cons, List.take_succ_cons, List.map_cons, List.cons.injEq,
            Nat.add_le_add_iff_right]
          constructor
          · rintro ⟨h1, h2, h3⟩
            exact ⟨h2, h1.symm, h3⟩
          · rintro ⟨h1, h2, h3⟩
            exact ⟨h2.symm, h1, h3⟩

theorem ciMatchAt_iff (text term : List Char) (i : Nat) (hne : term ≠ []) :
    ciMatchAt text term i = true ↔
      i + term.length ≤ text.length ∧
        ((text.drop i).take term.length).map toLowerChar = term.map toLowerChar := by
  unfold ciMatchAt
  rw [ciPref_iff]
  have hlen : (text.drop i).length = text.length - i := List.length_drop i text
  have hτ : 0 < term.length := List.length_pos.mpr hne
  constructor
  · rintro ⟨h1, h2⟩
    exact ⟨by omega, h2⟩
  · rintro ⟨h1, h2⟩
    exact ⟨by omega, h2⟩

theorem boundsOk_iff (text term : List Char) (pos : Nat) :
    boundsOk text term pos = true ↔
      (pos = 0 ∨ is_word_delimiter (charAt text (pos - 1)) = true) ∧
      (pos + term.length = text.length ∨
        is_word_delimiter (charAt text (pos + term.length)) = true) := by
  simp [boundsOk]

theorem specWordOccur_boundsOk (text term : List Char) (pos : Nat)
    (h : SpecWordOccur text term pos) : boundsOk text term pos = true := by
  rw [boundsOk_iff]
  exact ⟨h.2.2.1, h.2.2.2⟩

theorem wordScan_iff (text term : List Char) (hne : term ≠ []) (i : Nat) :
    wordScan text term i = true ↔ ∃ pos, i ≤ pos ∧ SpecWordOccur text term pos := by
  have hτ : 0 < term.length := List.length_pos.mpr hne
  induction i using wordScan.induct text term with
  | case1 i hin hfit =>
      rw [wordScan, if_pos hin, if_pos hfit]
      constructor
      · intro hw
        exact absurd hw (by simp)
      · rintro ⟨pos, hpos, hocc⟩
        have := hocc.1
        omega
  | case2 i hin hfit hm hb =>
      rw [wordScan, if_pos hin, if_neg hfit, if_pos hm, if_pos hb]
      constructor
      · intro _
        refine ⟨i, le_refl i, ?_, ?_, ?_, ?_⟩
        · omega
        · exact ((ciMatchAt_iff text term i hne).mp hm).2
        · exact ((boundsOk_iff text term i).mp hb).1
        · exact ((boundsOk_iff text term i).mp hb).2
      · intro _
        rfl
  | case3 i hin hfit hm hb ih =>
      rw [wordScan, if_pos hin, if_neg hfit, if_pos hm, if_neg hb]
      constructor
      · intro hw
        obtain ⟨pos, hpos, hocc⟩ := ih.mp hw
        exact ⟨pos, by omega, hocc⟩
      · rintro ⟨pos, hpos, hocc⟩
        refine ih.mpr ⟨pos, ?_, hocc⟩
        rcases Nat.lt_or_ge i pos with hlt | hge
        · omega
        · exfalso
          have : pos = i := by omega
          subst this
          exact hb (specWordOccur_boundsOk text term pos hocc)
  | case4 i hin hfit hm ih =>
      rw [wordScan, if_pos hin, if_neg hfit, if_neg hm]
      constructor
      · intro hw
        obtain ⟨pos, hpos, hocc⟩ := ih.mp hw
        exact ⟨pos, by omega, hocc⟩
      · rintro ⟨pos, hpos, hocc⟩
        refine ih.mpr ⟨pos, ?_, hocc⟩
        rcases Nat.lt_or_ge i pos with hlt | hge
        · omega
        · exfalso
          have : pos = i := by omega
          subst this
          exact absurd ((ciMatchAt_iff text term pos hne).mpr ⟨hocc.1, hocc.2.1⟩) hm
  | case5 i hin =>
      rw [wordScan, if_neg hin]
      constructor
      · intro hw
        exact absurd hw (by simp)
      · rintro ⟨pos, hpos, hocc⟩
        have := hocc.1
        omega

theorem containsWordStr_iff (text term : List Char) (hne : term ≠ []) :
    containsWordStr text term = true ↔ ∃ pos, SpecWordOccur text term pos := by
  unfold containsWordStr
  split
  · constructor
    · intro hw
      exact absurd hw (by simp)
    · rintro ⟨pos, hocc⟩
      have h1 := hocc.1
      have hτ : 0 < term.length := List.length_pos.mpr hne
      omega
  · rw [wordScan_iff text term hne 0]
    constructor
    · rintro ⟨pos, _, hocc⟩
      exact ⟨pos, hocc⟩
    · rintro ⟨pos, hocc⟩
      exact ⟨pos, Nat.zero_le pos, hocc⟩

/-! ## Parser lemmas for the SET/GET roundtrip -/

theorem findCharAux_append_first (cs tail : List Char) (c : Char) (i : Nat)
    (h : ∀ x ∈ cs, ¬x = c) :
    findCharAux (cs ++ c :: tail) c i = some (i + cs.length) := by
  induction cs generalizing i with
  | nil => simp [findCharAux]
  | cons a rest ih =>
      have ha : ¬a = c := h a (by simp)
      simp only [List.cons_append, findCharAux, if_neg ha, List.append_eq]
      rw [ih (i + 1) (fun x hx => h x (by simp [hx]))]
      congr 1
      simp only [List.length_cons]
      omega

theorem usub_small (a b : Nat) (hb : b ≤ a) (ha : a < U64) : usub a b = a - b := by
  have h64 : U64 = 18446744073709551616 := by norm_num [U64]
  unfold usub
  rw [h64] at ha ⊢
  omega

theorem tokenize_plain (cs : List Char)
    (h : ∀ c ∈ cs, isSpaceChar c = false ∧ ¬c = '"' ∧ ¬c = '\'' ∧ ¬c = Char.ofNat 0) :
    ∀ cur : List Char,
      tokenize cs cur none = if cur ++ cs = [] then [] else [cur ++ cs] := by
  induction cs with
  | nil => intro cur; simp [tokenize]
  | cons c rest ih =>
      intro cur
      obtain ⟨hsp, hq1, hq2, hz⟩ := h c (by simp)
      rw [tokenize]
      rw [if_neg (by simp [hq1, hq2])]
      rw [if_neg hz, if_neg (by simp [hsp])]
      rw [ih (fun x hx => h x (by simp [hx])) (cur ++ [c])]
      simp

theorem rfindStr_matches (cs pat : List Char) (i : Nat)
    (h : rfindStr cs pat = some i) : matchesAt cs pat i = true := by
  unfold rfindStr at h
  have hmem := List.mem_of_mem_getLast? h
  exact (List.mem_filter.mp hmem).2

theorem exPat_not_in_quoted (v : List Char)
    (hv : ∀ i, matchesAt v " EX ".data i = false) (m : Nat) :
    (" EX ".data).isPrefixOf ((v ++ ['"']).drop m) = false := by
  by_contra hc
  rw [Bool.not_eq_false, List.isPrefixOf_iff_prefix] at hc
  have hlen4 : (" EX ".data).length = 4 := by decide
  have hlen := hc.length_le
  rw [hlen4] at hlen
  have hld : ((v ++ ['"']).drop m).length = v.length + 1 - m := by
    simp [List.length_drop]
  rw [hld] at hlen
  have hdrop : (v ++ ['"']).drop m = v.drop m ++ ['"'] :=
    List.drop_append_of_le_length (by omega)
  rw [hdrop] at hc
  by_cases hfit : m + 4 ≤ v.length
  · have htake : " EX ".data = (v.drop m ++ ['"']).take 4 := by
      have h1 := List.prefix_iff_eq_take.mp hc
      rwa [hlen4] at h1
    rw [List.take_append_of_le_length (by simp [List.length_drop]; omega)] at htake
    have hpref : (" EX ".data) <+: v.drop m :=
      htake ▸ List.take_prefix 4 (v.drop m)
    have hvm := hv m
    rw [matchesAt] at hvm
    rw [show (" EX ".data).isPrefixOf (v.drop m) = true from
      List.isPrefixOf_iff_prefix.mpr hpref] at hvm
    exact absurd hvm (by simp)
  · have heq : " EX ".data = v.drop m ++ ['"'] := hc.eq_of_length (by
      simp only [hlen4, List.length_append, List.length_drop, List.length_singleton]
      omega)
    have hlast : (" EX ".data).getLast? = (v.drop m ++ ['"']).getLast? := by rw [heq]
    rw [List.getLast?_concat] at hlast
    exact absurd hlast (by decide)

theorem parse_set_line (k v : List Char)
    (hkc : ∀ c ∈ k, ¬c = ' ')
    (hv : ∀ i, matchesAt v " EX ".data i = false)
    (hvlen : v.length ≤ MAX_PAYLOAD_SIZE) :
    parseLine ('S' :: 'E' :: 'T' :: ' ' :: (k ++ (' ' :: '"' :: (v ++ ['"'])))) =
      ["SET".data, k, v] := by
  set L := 'S' :: 'E' :: 'T' :: ' ' :: (k ++ (' ' :: '"' :: (v ++ ['"']))) with hLdef
  have hassoc : L = (['S', 'E', 'T', ' '] ++ k) ++ (' ' :: '"' :: (v ++ ['"'])) := by
    simp [hLdef]
  have hne : L ≠ [] := by simp [hLdef]
  have hf0 : findChar L ' ' 0 = some 3 := by
    simp [hLdef, findChar, findCharAux]
  have hdrop4 : L.drop 4 = k ++ (' ' :: '"' :: (v ++ ['"'])) := by
    rw [hLdef]
    rfl
  have hf4 : findChar L ' ' 4 = some (4 + k.length) := by
    unfold findChar
    rw [hdrop4]
    exact findCharAux_append_first k _ ' ' 4 hkc
  have hdropVdp : L.drop (4 + k.length) = ' ' :: '"' :: (v ++ ['"']) := by
    rw [hassoc]
    exact List.drop_left'
      (by simp only [List.length_append, List.length_cons, List.length_nil])
  have hfn : findNotOf L [' ', '\t'] (4 + k.length) = some (4 + k.length + 1) := by
    unfold findNotOf
    rw [hdropVdp]
    simp [findNotOfAux]
  have hkey : substr L 4 (4 + k.length - 4) = k := by
    unfold substr
    rw [hdrop4, show 4 + k.length - 4 = k.length from by omega]
    exact List.take_left' rfl
  have hcmd3 : substr L 0 3 = "SET".data := by
    rw [hLdef]
    rfl
  have hEX : ∀ i, 4 + k.length < i → matchesAt L " EX ".data i = false := by
    intro i hi
    unfold matchesAt
    have hdropi : L.drop i = (' ' :: '"' :: (v ++ ['"'])).drop (i - (4 + k.length)) := by
      rw [← hdropVdp, List.drop_drop]
      congr 1
      omega
    rw [hdropi]
    have hj1 : 1 ≤ i - (4 + k.length) := by omega
    by_cases hj : i - (4 + k.length) = 1
    · rw [hj]
      simp [List.isPrefixOf]
    · have hj2 : 2 ≤ i - (4 + k.length) := by omega
      have : (' ' :: '"' :: (v ++ ['"'])).drop (i - (4 + k.length)) =
          (v ++ ['"']).drop (i - (4 + k.length) - 2) := by
        rw [show i - (4 + k.length) = (i - (4 + k.length) - 2) + 2 from by omega]
        rfl
      rw [this]
      exact exPat_not_in_quoted v hv _
  have hcharAt : charAt L (4 + k.length + 1) = '"' := by
    unfold charAt
    rw [hassoc, List.getD_append_right _ _ _ _
      (by simp only [List.length_append, List.length_cons, List.length_nil]
          all_goals omega)]
    rw [show 4 + k.length + 1 - (['S', 'E', 'T', ' '] ++ k).length = 1 from by
      simp only [List.length_append, List.length_cons, List.length_nil]
      all_goals omega]
    rfl
  have hassoc2 : L = ('S' :: 'E' :: 'T' :: ' ' :: (k ++ (' ' :: '"' :: v))) ++ ['"'] := by
    simp [hLdef]
  have hlast : L.getLast? = some '"' := by
    rw [hassoc2]
    exact List.getLast?_concat _
  have hlen : L.length = k.length + v.length + 7 := by
    simp only [hLdef, List.length_cons, List.length_append, List.length_singleton,
      List.length_nil]
    all_goals omega
  have hval : substr L (4 + k.length + 1 + 1) (usub (L.length - (4 + k.length + 1)) 2) = v := by
    have h1 : L.length - (4 + k.length + 1) = v.length + 2 := by
      rw [hlen]
      omega
    have h2 : usub (v.length + 2) 2 = v.length := by
      have hM : v.length ≤ 1073741824 := by
        have hv2 := hvlen
        norm_num [MAX_PAYLOAD_SIZE] at hv2
        exact hv2
      refine usub_small _ _ (by omega) ?_
      have hU : U64 = 18446744073709551616 := by norm_num [U64]
      rw [hU]
      omega
    rw [h1, h2]
    unfold substr
    have hassoc3 : L = ('S' :: 'E' :: 'T' :: ' ' :: (k ++ [' ', '"'])) ++ (v ++ ['"']) := by
      simp [hLdef]
    rw [hassoc3, List.drop_left'
      (by simp only [List.length_append, List.length_cons, List.length_nil]
          all_goals omega)]
    exact List.take_left' rfl
  -- now drive the parser
  unfold parseLine
  rw [if_neg hne, hf0]
  dsimp only
  rw [hcmd3]
  rw [if_pos (by decide :
    List.map toUpperChar "SET".data = "SET".data ∨
      List.map toUpperChar "SET".data = "UPDATE".data)]
  dsimp only
  rw [show (3 : Nat) + 1 = 4 from rfl, hf4]
  dsimp only
  rw [hfn, hkey]
  cases hrf : rfindStr L " EX ".data with
  | none =>
      dsimp only
      rw [if_neg (by simp [hcharAt, hlast]), hval]
  | some ep =>
      have hep : ¬(4 + k.length < ep) := by
        intro hlt
        have hm := rfindStr_matches L " EX ".data ep hrf
        rw [hEX ep hlt] at hm
        exact absurd hm (by simp)
      dsimp only
      rw [if_neg hep]
      rw [if_neg (by simp [hcharAt, hlast]), hval]

theorem matchesAt_all_false_of_bounded (cs pat : List Char) (hpat : pat ≠ [])
    (h : ∀ i < cs.length, matchesAt cs pat i = false) :
    ∀ i, matchesAt cs pat i = false := by
  intro i
  by_cases hi : i < cs.length
  · exact h i hi
  · unfold matchesAt
    rw [List.drop_eq_nil_of_le (by omega)]
    cases pat with
    | nil => exact absurd rfl hpat
    | cons a rest => rfl

theorem parse_get_line (k : List Char) (hk : k ≠ [])
    (hkc : ∀ c ∈ k, isSpaceChar c = false ∧ ¬c = '"' ∧ ¬c = '\'' ∧ ¬c = Char.ofNat 0) :
    parseLine ('G' :: 'E' :: 'T' :: ' ' :: k) = ["GET".data, k] := by
  set L := 'G' :: 'E' :: 'T' :: ' ' :: k with hLdef
  have hne : L ≠ [] := by simp [hLdef]
  have hf0 : findChar L ' ' 0 = some 3 := by
    simp [hLdef, findChar, findCharAux]
  have hcmd3 : substr L 0 3 = "GET".data := by
    rw [hLdef]
    rfl
  have hdrop4 : L.drop (3 + 1) = k := by
    rw [hLdef]
    rfl
  have htok : tokenize k [] none = [k] := by
    rw [tokenize_plain k hkc []]
    simp [hk]
  unfold parseLine
  rw [if_neg hne, hf0]
  dsimp only
  rw [hcmd3]
  rw [if_neg (by decide :
    ¬(List.map toUpperChar "GET".data = "SET".data ∨
      List.map toUpperChar "GET".data = "UPDATE".data))]
  rw [if_neg (by decide :
    ¬(List.map toUpperChar "GET".data = "JSON.SET".data ∨
      List.map toUpperChar "GET".data = "JSON.APPEND".data))]
  dsimp only
  rw [hdrop4, htok]
  rw [if_neg (by decide :
    ¬(List.map toUpperChar "GET".data = "JSON.UPDATE".data ∨
      List.map toUpperChar "GET".data = "JSON.GET".data))]

mutual

theorem jcw_any (j : Jx) (term : List Char) :
    json_contains_word j term =
      (jstrings j).any (fun s => containsWordStr s term) := by
  cases j with
  | jnull => rfl
  | jbool b => rfl
  | jnum n => rfl
  | jstr s => simp [json_contains_word, jstrings]
  | jobj fields =>
      rw [json_contains_word, jstrings]
      exact jcwFields_any fields term
  | jarr elems =>
      rw [json_contains_word, jstrings]
      exact jcwElems_any elems term

theorem jcwFields_any (fields : List (List Char × Jx)) (term : List Char) :
    jcwFields fields term =
      (jstringsFields fields).any (fun s => containsWordStr s term) := by
  cases fields with
  | nil => rfl
  | cons f rest =>
      rw [jcwFields, jstringsFields, List.any_append,
        jcw_any f.2 term, jcwFields_any rest term]

theorem jcwElems_any (elems : List Jx) (term : List Char) :
    jcwElems elems term =
      (jstringsElems elems).any (fun s => containsWordStr s term) := by
  cases elems with
  | nil => rfl
  | cons e rest =>
      rw [jcwElems, jstringsElems, List.any_append,
        jcw_any e term, jcwElems_any rest term]

end

/-! ## Claim theorems -/

/-- C1: the claim says every destruction of a key decrements the memory
estimate by the destroyed pair's `len(k)+len(v)`, keeping
`MemoryEstimate = Σ (len(k)+len(v))` after every completed command.  The
eviction loop of `_enforce_memory_limit` in server.cpp violates this: at the
store `{a ↦ 111, b ↦ 222}` (estimate 8) with a limit of 5 bytes, the loop
destroys both pairs but leaves the estimate at 8 (it never subtracts the
evicted sizes, so the loop only stops once the LRU list is empty), where the
claim demands 8 − 4 = 4 after the first eviction and a final estimate equal to
the remaining sum. -/
theorem claim_C1_eviction_keeps_memEst :
    enforceMemoryLimit ⟨true, 5, 1, true⟩
        ⟨[("a", "111"), ("b", "222")], [], ["a", "b"], 0, 8⟩ =
      ⟨[], [], [], 0, 8⟩ := by
  decide

/-- C2: the claim says a failed snapshot save leaves the dirty counter
unchanged.  `_save_to_file_unlocked` in server.cpp resets the counter outside
the `is_open()` guard: saving to the configured database path with 7 unsaved
operations while the output file cannot be opened writes nothing (`none`) yet
still resets the dirty counter to 0. -/
theorem claim_C2_failed_save_resets_dirty :
    save_to_file_unlocked true false true ⟨[("a", "x")], [], [], 7, 2⟩ =
      (⟨[("a", "x")], [], [], 0, 2⟩, none) := by
  rfl

/-- C9: `STRESS n` leaves the live store (value map, TTL map, LRU structures,
memory estimate, dirty counter) untouched and performs no snapshot write, for
every argument list — server.cpp's `_handle_stress` runs its benchmark
against a local ephemeral map and never calls `_save_to_file_unlocked`. -/
theorem claim_C9_stress_isolated (args : List String) (s : Store) :
    (handle_stress args s).2.1 = s ∧ (handle_stress args s).2.2 = [] := by
  unfold handle_stress
  split
  · exact ⟨rfl, rfl⟩
  · split
    · exact ⟨rfl, rfl⟩
    · split
      · exact ⟨rfl, rfl⟩
      · exact ⟨rfl, rfl⟩

/-- C5 counterexample: the claim says the value read under the read lock is
returned even if the key is deleted between the two lock acquisitions of
`_handle_get`.  With `k ↦ v` visible in the read critical section but the key
gone by the write critical section, server.cpp answers `(nil)`, not `v`: the
handler re-checks presence under the write lock and discards the value it
already read. -/
theorem claim_C5_get_race_counterexample :
    (handle_get ["k"] cfgDefault ⟨[("k", "v")], [], [], 0, 2⟩ emptyStore).1.2 = "(nil)" ∧
    (handle_get ["k"] cfgDefault ⟨[("k", "v")], [], [], 0, 2⟩ emptyStore).1.2 ≠ "v" := by
  decide

/-- C5 (amended): for a GET whose key is present at lookup time, the value
read under the read lock is returned iff the key is still present when the
write lock is re-acquired for the LRU promotion; if the key was destroyed in
the interim the reply is `(nil)`. -/
theorem claim_C5_get_race (k v : String) (cfg : Config) (s1 s2 : Store)
    (hv : alookup s1.kv k = some v) :
    (handle_get [k] cfg s1 s2).1 =
      if (alookup s2.kv k).isSome then ((200, v) : HandlerResult)
      else ((404, "(nil)") : HandlerResult) := by
  cases h2 : alookup s2.kv k with
  | none => simp [handle_get, hv, h2]
  | some w => simp [handle_get, hv, h2]

/-- C5 witness: a concrete GET where the key survives to the write section
returns the value read, and one where it does not returns `(nil)`. -/
theorem claim_C5_get_race_witness :
    (handle_get ["k"] cfgDefault ⟨[("k", "v")], [], [], 0, 2⟩
        ⟨[("k", "v")], [], [], 0, 2⟩).1 = ((200, "v") : HandlerResult) := by
  have h := claim_C5_get_race "k" "v" cfgDefault ⟨[("k", "v")], [], [], 0, 2⟩
    ⟨[("k", "v")], [], [], 0, 2⟩ (by decide)
  simpa using h

/-- C10: `SET key value EX secs` with a `secs` that `std::stoll` rejects
returns the EX-parse error, yet the value has already been stored under the
key, the key's previous TTL entry (if any) is retained, and the dirty counter
is not incremented — the store is not left unchanged on this error. -/
theorem claim_C10_set_ex_error_partial_write (now : Int) (k v secs : String)
    (cfg : Config) (s : Store) (hbad : stollOpt secs = none) :
    (handle_set now [k, v, "EX", secs] cfg s).1 =
      ((400, "-ERR value is not an integer") : HandlerResult) ∧
    (handle_set now [k, v, "EX", secs] cfg s).2.kv = ainsert s.kv k v ∧
    (handle_set now [k, v, "EX", secs] cfg s).2.ttl = s.ttl ∧
    (handle_set now [k, v, "EX", secs] cfg s).2.dirty = s.dirty := by
  have hmode : toUpperStr "EX" = "EX" := by decide
  unfold handle_set
  simp [hmode, hbad]

/-- C10 witness: the partial write at a concrete bad-EX SET. -/
theorem claim_C10_set_ex_error_partial_write_witness :
    (handle_set 0 ["k", "v", "EX", "ten"] cfgDefault emptyStore).1 =
      ((400, "-ERR value is not an integer") : HandlerResult) ∧
    (handle_set 0 ["k", "v", "EX", "ten"] cfgDefault emptyStore).2.kv =
      ainsert emptyStore.kv "k" "v" ∧
    (handle_set 0 ["k", "v", "EX", "ten"] cfgDefault emptyStore).2.ttl = emptyStore.ttl ∧
    (handle_set 0 ["k", "v", "EX", "ten"] cfgDefault emptyStore).2.dirty =
      emptyStore.dirty :=
  claim_C10_set_ex_error_partial_write 0 "k" "v" "ten" cfgDefault emptyStore (by decide)

/-- C6: for every JSON value and every non-empty search term,
`json_contains_word` returns true iff some string in the document (recursing
through objects and arrays) contains the term as a case-insensitive substring
whose left and right boundaries are each either the string edge or a
non-alphanumeric ASCII byte. -/
theorem claim_C6_json_contains_word (j : Jx) (term : List Char) (hne : term ≠ []) :
    json_contains_word j term = true ↔ SpecContainsWord j term := by
  rw [jcw_any, List.any_eq_true]
  unfold SpecContainsWord
  constructor
  · rintro ⟨s, hs, hc⟩
    exact ⟨s, hs, (containsWordStr_iff s term hne).mp hc⟩
  · rintro ⟨s, hs, hocc⟩
    exact ⟨s, hs, (containsWordStr_iff s term hne).mpr hocc⟩

/-- C6 witness: searching `fox` in
`{"text": "The quickfox jumps over the fox"}` finds the standalone `fox`, and
in `{"text": "The quickfox jumps"}` — where `fox` occurs only inside
`quickfox` — finds nothing. -/
theorem claim_C6_json_contains_word_witness :
    SpecContainsWord
      (Jx.jobj [("text".data, Jx.jstr "The quickfox jumps over the fox".data)])
      "fox".data ∧
    ¬ SpecContainsWord
      (Jx.jobj [("text".data, Jx.jstr "The quickfox jumps".data)]) "fox".data := by
  constructor
  · refine (claim_C6_json_contains_word _ _ (by decide)).mp ?_
    simp [json_contains_word, jcwFields, jcwElems, containsWordStr, wordScan,
      ciMatchAt, ciPref, ciEq, toLowerChar, boundsOk, charAt, is_word_delimiter]
  · intro hspec
    have hf := (claim_C6_json_contains_word
      (Jx.jobj [("text".data, Jx.jstr "The quickfox jumps".data)])
      "fox".data (by decide)).mpr hspec
    revert hf
    simp [json_contains_word, jcwFields, jcwElems, containsWordStr, wordScan,
      ciMatchAt, ciPref, ciEq, toLowerChar, boundsOk, charAt, is_word_delimiter]

/-- C7: at every observable point of a run — the empty boot state, a state
obtained by loading a snapshot the engine itself saved, and after each
completed operation (including background TTL sweeps, batched saves, LRU
evictions inside a write, and the JSON write handlers) — every key in the TTL
map also appears in the value map. -/
theorem claim_C7_ttl_keys_in_kv (cfg : Config) (s : Store) (h : Reachable cfg s) :
    TtlInv s :=
  (reachable_goodT cfg s h).1

/-- C7 witness: the invariant at the concrete observable state reached by
`SET k "v" EX 9` from boot. -/
theorem claim_C7_ttl_keys_in_kv_witness :
    TtlInv (handle_set 0 ["k", "v", "EX", "9"] cfgDefault emptyStore).2 :=
  claim_C7_ttl_keys_in_kv cfgDefault _
    (Reachable.step _ _ Reachable.init (Step.set 0 ["k", "v", "EX", "9"] emptyStore))

/-- C8 counterexample: the claim says `INCR k` on a key whose stored value is
not a signed 64-bit decimal integer returns `-ERR not an integer`.  On the
stored value `abc` server.cpp's `_handle_incr_decr` answers
`-ERR value is not an integer` (the text `-ERR not an integer` is reserved for
an unparsable explicit amount argument); and on the stored value `12abc` —
also not a signed 64-bit decimal integer — `std::stoll` accepts the `12`
prefix and the command succeeds with `13` instead of erroring. -/
theorem claim_C8_incr_error_counterexample :
    (handle_incr_decr ["k"] true cfgDefault ⟨[("k", "abc")], [], [], 0, 4⟩).1.2 =
      "-ERR value is not an integer" ∧
    (handle_incr_decr ["k"] true cfgDefault ⟨[("k", "abc")], [], [], 0, 4⟩).1.2 ≠
      "-ERR not an integer" ∧
    (handle_incr_decr ["k"] true cfgDefault ⟨[("k", "12abc")], [], [], 0, 6⟩).1.2 =
      "13" := by
  refine ⟨by decide, by decide, ?_⟩
  decide

/-- C8 (amended): with the memory limit disabled (the default), `INCR k` with
no amount on an absent key replies `1`, a subsequent `INCR k 5` replies `6`
and `DECR k 2` then replies `4`; and for every key whose stored value
`std::stoll` rejects (no leading optional-sign digit run after optional
whitespace, or out of signed-64-bit range — trailing garbage after a valid
prefix is accepted), `INCR k` replies `-ERR value is not an integer`. -/
theorem claim_C8_incr_decr (k : String) (cfg : Config) (s : Store)
    (habs : alookup s.kv k = none) (hmm : cfg.maxMem = 0) :
    ((handle_incr_decr [k] true cfg s).1.2 = "1" ∧
     (handle_incr_decr [k, "5"] true cfg
        (handle_incr_decr [k] true cfg s).2).1.2 = "6" ∧
     (handle_incr_decr [k, "2"] false cfg
        (handle_incr_decr [k, "5"] true cfg
          (handle_incr_decr [k] true cfg s).2).2).1.2 = "4") ∧
    (∀ (k' v : String) (s' : Store), alookup s'.kv k' = some v → stollOpt v = none →
      (handle_incr_decr [k'] true cfg s').1 =
        ((400, "-ERR value is not an integer") : HandlerResult)) := by
  have hz := enforceMemoryLimit_zero cfg hmm
  have hlru := updateLru_zero cfg hmm
  constructor
  · have h1 : (handle_incr_decr [k] true cfg s).1.2 = "1" ∧
        (handle_incr_decr [k] true cfg s).2.kv = ainsert s.kv k "1" := by
      unfold handle_incr_decr
      simp [habs, hz, hlru, show i64wrap 1 = 1 from by decide,
        show toString (1 : Int) = "1" from by decide]
    have step6 : ∀ t : Store, alookup t.kv k = some "1" →
        (handle_incr_decr [k, "5"] true cfg t).1.2 = "6" ∧
        (handle_incr_decr [k, "5"] true cfg t).2.kv = ainsert t.kv k "6" := by
      intro t ht
      unfold handle_incr_decr
      simp [ht, hz, hlru, show stollOpt "5" = some 5 from by decide,
        show stollOpt "1" = some 1 from by decide,
        show i64wrap 6 = 6 from by decide,
        show toString (6 : Int) = "6" from by decide]
    have step4 : ∀ t : Store, alookup t.kv k = some "6" →
        (handle_incr_decr [k, "2"] false cfg t).1.2 = "4" := by
      intro t ht
      unfold handle_incr_decr
      simp [ht, hz, hlru, show stollOpt "2" = some 2 from by decide,
        show stollOpt "6" = some 6 from by decide,
        show i64wrap 4 = 4 from by decide,
        show toString (4 : Int) = "4" from by decide]
    have hk1 : alookup (handle_incr_decr [k] true cfg s).2.kv k = some "1" := by
      rw [h1.2, alookup_ainsert, if_pos rfl]
    have h2 := step6 _ hk1
    have hk2 : alookup (handle_incr_decr [k, "5"] true cfg
        (handle_incr_decr [k] true cfg s).2).2.kv k = some "6" := by
      rw [h2.2, alookup_ainsert, if_pos rfl]
    exact ⟨h1.1, h2.1, step4 _ hk2⟩
  · intro k' v s' hv hbad
    unfold handle_incr_decr
    simp [hv, hbad]

/-- C8 witness: the `1`, `6`, `4` chain and the error reply evaluated at
concrete inputs. -/
theorem claim_C8_incr_decr_witness :
    ((handle_incr_decr ["n"] true cfgDefault emptyStore).1.2 = "1" ∧
     (handle_incr_decr ["n", "5"] true cfgDefault
        (handle_incr_decr ["n"] true cfgDefault emptyStore).2).1.2 = "6" ∧
     (handle_incr_decr ["n", "2"] false cfgDefault
        (handle_incr_decr ["n", "5"] true cfgDefault
          (handle_incr_decr ["n"] true cfgDefault emptyStore).2).2).1.2 = "4") ∧
    (handle_incr_decr ["w"] true cfgDefault ⟨[("w", "abc")], [], [], 0, 4⟩).1 =
      ((400, "-ERR value is not an integer") : HandlerResult) := by
  have h := claim_C8_incr_decr "n" cfgDefault emptyStore (by decide) rfl
  exact ⟨h.1, h.2 "w" "abc" ⟨[("w", "abc")], [], [], 0, 4⟩ (by decide) (by decide)⟩

/-- C4: for every received frame with an 8-byte header, if the big-endian
declared length exceeds `MAX_PAYLOAD_SIZE` then `recv_message` reports
connection-terminated and the `handle_client` round emits no reply bytes; a
declared length of 0 is accepted and yields an empty command string; otherwise
exactly the declared number of body bytes is consumed and a short read is
treated as EOF (`none`). -/
theorem claim_C4_recv_message (hdr rest : List Nat) (h8 : hdr.length = 8) :
    (MAX_PAYLOAD_SIZE < beVal hdr →
       recv_message (hdr ++ rest) = none ∧
       ∀ f : List Nat → List Nat, clientRoundOutput f (hdr ++ rest) = []) ∧
    (beVal hdr = 0 → recv_message (hdr ++ rest) = some ([], rest)) ∧
    (beVal hdr ≤ MAX_PAYLOAD_SIZE → beVal hdr ≠ 0 →
       (beVal hdr ≤ rest.length →
          recv_message (hdr ++ rest) =
            some (rest.take (beVal hdr), rest.drop (beVal hdr))) ∧
       (rest.length < beVal hdr → recv_message (hdr ++ rest) = none)) := by
  have hrecv8 : recv_all (hdr ++ rest) 8 = some (hdr, rest) := by
    unfold recv_all
    rw [if_neg (by simp [h8])]
    rw [List.take_left' h8, List.drop_left' h8]
  refine ⟨fun hbig => ⟨?_, ?_⟩, fun hz => ?_, fun hsmall hnz => ⟨fun hfit => ?_, fun hshort => ?_⟩⟩
  · unfold recv_message
    rw [hrecv8]
    simp only []
    rw [if_pos hbig]
  · intro f
    unfold clientRoundOutput recv_message
    rw [hrecv8]
    simp only []
    rw [if_pos hbig]
  · unfold recv_message
    rw [hrecv8]
    simp only []
    rw [if_neg (by simp [hz, MAX_PAYLOAD_SIZE]), if_pos hz]
  · unfold recv_message
    rw [hrecv8]
    simp only []
    rw [if_neg (by omega), if_neg hnz]
    unfold recv_all
    rw [if_neg (by omega)]
  · unfold recv_message
    rw [hrecv8]
    simp only []
    rw [if_neg (by omega), if_neg hnz]
    unfold recv_all
    rw [if_pos (by omega)]

/-- C4 witness: a header declaring 2^62 bytes closes the connection with no
output; a zero-length frame yields the empty command; a 2-byte frame returns
exactly its body; a truncated body is EOF. -/
theorem claim_C4_recv_message_witness :
    recv_message ([64, 0, 0, 0, 0, 0, 0, 0] ++ [1, 2, 3]) = none ∧
    clientRoundOutput (fun m => m) ([64, 0, 0, 0, 0, 0, 0, 0] ++ [1, 2, 3]) = [] ∧
    recv_message ([0, 0, 0, 0, 0, 0, 0, 0] ++ [1, 2, 3]) = some ([], [1, 2, 3]) ∧
    recv_message ([0, 0, 0, 0, 0, 0, 0, 2] ++ [1, 2, 3]) = some ([1, 2], [3]) ∧
    recv_message ([0, 0, 0, 0, 0, 0, 0, 9] ++ [1, 2, 3]) = none := by
  have hbig := (claim_C4_recv_message [64, 0, 0, 0, 0, 0, 0, 0] [1, 2, 3] (by decide)).1
    (by decide)
  have hz := (claim_C4_recv_message [0, 0, 0, 0, 0, 0, 0, 0] [1, 2, 3] (by decide)).2.1
    (by decide)
  have hfit := ((claim_C4_recv_message [0, 0, 0, 0, 0, 0, 0, 2] [1, 2, 3]
    (by decide)).2.2 (by decide) (by decide)).1 (by decide)
  have hshort := ((claim_C4_recv_message [0, 0, 0, 0, 0, 0, 0, 9] [1, 2, 3]
    (by decide)).2.2 (by decide) (by decide)).2 (by decide)
  exact ⟨hbig.1, hbig.2 _, hz, by simpa using hfit, hshort⟩

/-- C3 counterexample: the claim quantifies over arbitrary keys and values,
but the roundtrip fails at each of the following concrete inputs, one per
restriction the amended claim imposes:
* `v = "a EX b"`: `SET k "a EX b"` is not `+OK` — `parse_command_line` finds
  the ` EX ` separator inside the quoted value (`rfind` scans the raw line),
  the quote checks fail and the handler answers the arity error;
* the empty key: `SET  "v"` succeeds and stores key `""`, but `GET ` (and any
  other spelling of a GET of the empty key) tokenizes to zero arguments and
  answers the arity error, never `v`;
* a key with a space (`a b`): the key/value split lands inside the key and
  SET itself fails;
* a key with a quote (`a"b`): SET succeeds, but GET's tokenizer treats the
  quote as a quote character and produces two arguments — arity error;
* a key with a NUL byte: SET succeeds, but GET's tokenizer silently drops the
  NUL (the `c == quote_type` comparison with `quote_type == 0`), looks up the
  wrong key and answers `(nil)`. -/
theorem claim_C3_set_get_counterexample :
    ((execLine 0 "SET k \"a EX b\"" cfgDefault emptyStore).1.2 ≠ "+OK" ∧
     (execLine 0 "SET k \"a EX b\"" cfgDefault emptyStore).1.2 =
      "-ERR wrong number of arguments for 'SET'. Expected: SET <key> \"<value>\" [EX <seconds>]") ∧
    ((execLine 0 "SET  \"v\"" cfgDefault emptyStore).1.2 = "+OK" ∧
     (execLine 0 "GET " cfgDefault
        (execLine 0 "SET  \"v\"" cfgDefault emptyStore).2).1.2 =
      "-ERR wrong number of arguments") ∧
    (execLine 0 "SET a b \"v\"" cfgDefault emptyStore).1.2 ≠ "+OK" ∧
    ((execLine 0 "SET a\"b \"v\"" cfgDefault emptyStore).1.2 = "+OK" ∧
     (execLine 0 "GET a\"b" cfgDefault
        (execLine 0 "SET a\"b \"v\"" cfgDefault emptyStore).2).1.2 =
      "-ERR wrong number of arguments") ∧
    ((execLine 0 "SET a\x00b \"v\"" cfgDefault emptyStore).1.2 = "+OK" ∧
     (execLine 0 "GET a\x00b" cfgDefault
        (execLine 0 "SET a\x00b \"v\"" cfgDefault emptyStore).2).1.2 = "(nil)") := by
  refine ⟨⟨by decide, by decide⟩, ⟨by decide, by decide⟩, by decide,
    ⟨by decide, by decide⟩, by decide, by decide⟩

/-- C3 (amended): for every non-empty key whose bytes are free of whitespace,
quote characters and NUL, every value of length at most `MAX_PAYLOAD_SIZE`
that does not contain the four-byte sequence ` EX ` anywhere, and the memory
limit disabled (the default), parsing and executing `SET k "v"` succeeds with
`+OK` and a subsequent `GET k` returns exactly `v`. -/
theorem claim_C3_set_get_roundtrip (now : Int) (k v : String) (cfg : Config)
    (s : Store)
    (hk : k.data ≠ [])
    (hkc : ∀ c ∈ k.data,
      isSpaceChar c = false ∧ ¬c = '"' ∧ ¬c = '\'' ∧ ¬c = Char.ofNat 0)
    (hv : ∀ i, matchesAt v.data " EX ".data i = false)
    (hvlen : v.data.length ≤ MAX_PAYLOAD_SIZE)
    (hmm : cfg.maxMem = 0) :
    (execLine now ("SET " ++ k ++ " \"" ++ v ++ "\"") cfg s).1.2 = "+OK" ∧
    (execLine now ("GET " ++ k) cfg
        (execLine now ("SET " ++ k ++ " \"" ++ v ++ "\"") cfg s).2).1.2 = v := by
  have hkc' : ∀ c ∈ k.data, ¬c = ' ' := by
    intro c hc he
    have h1 := (hkc c hc).1
    rw [he] at h1
    exact absurd h1 (by decide)
  have hSdata : ("SET " ++ k ++ " \"" ++ v ++ "\"").data =
      'S' :: 'E' :: 'T' :: ' ' :: (k.data ++ (' ' :: '"' :: (v.data ++ ['"']))) := by
    simp [String.data_append]
  have hGdata : ("GET " ++ k).data = 'G' :: 'E' :: 'T' :: ' ' :: k.data := by
    simp [String.data_append]
  have hparseS : parse_command_line ("SET " ++ k ++ " \"" ++ v ++ "\"") =
      ["SET", k, v] := by
    unfold parse_command_line
    rw [hSdata, parse_set_line k.data v.data hkc' hv hvlen]
    rfl
  have hparseG : parse_command_line ("GET " ++ k) = ["GET", k] := by
    unfold parse_command_line
    rw [hGdata, parse_get_line k.data hk hkc]
    rfl
  have hexecS : execLine now ("SET " ++ k ++ " \"" ++ v ++ "\"") cfg s =
      handle_set now [k, v] cfg s := by
    unfold execLine
    rw [hparseS]
    dsimp only
    rw [show toUpperStr "SET" = "SET" from by decide]
    rw [if_neg (by decide : ¬("SET" : String) = "QUIT"),
      if_neg (by decide : ¬("SET" : String) = "PING")]
    unfold dispatch
    rw [if_pos (rfl : ("SET" : String) = "SET")]
  have hsetRes : (handle_set now [k, v] cfg s).1.2 = "+OK" ∧
      (handle_set now [k, v] cfg s).2.kv = ainsert s.kv k v := by
    unfold handle_set
    simp [enforceMemoryLimit_zero cfg hmm, updateLru_zero cfg hmm]
  have hexecG : ∀ t : Store, execLine now ("GET " ++ k) cfg t =
      handle_get [k] cfg t t := by
    intro t
    unfold execLine
    rw [hparseG]
    dsimp only
    rw [show toUpperStr "GET" = "GET" from by decide]
    rw [if_neg (by decide : ¬("GET" : String) = "QUIT"),
      if_neg (by decide : ¬("GET" : String) = "PING")]
    unfold dispatch
    rw [if_neg (by decide : ¬("GET" : String) = "SET"),
      if_pos (rfl : ("GET" : String) = "GET")]
  have hlook : alookup (handle_set now [k, v] cfg s).2.kv k = some v := by
    rw [hsetRes.2, alookup_ainsert, if_pos rfl]
  refine ⟨by rw [hexecS]; exact hsetRes.1, ?_⟩
  rw [hexecS, hexecG]
  unfold handle_get
  simp [hlook]

/-- C3 witness: the roundtrip at `k = "name"`,
`v = "héllo world \"quoted\""`. -/
theorem claim_C3_set_get_roundtrip_witness :
    (execLine 0 ("SET " ++ "name" ++ " \"" ++ "héllo world \"quoted\"" ++ "\"")
        cfgDefault emptyStore).1.2 = "+OK" ∧
    (execLine 0 ("GET " ++ "name") cfgDefault
        (execLine 0 ("SET " ++ "name" ++ " \"" ++ "héllo world \"quoted\"" ++ "\"")
          cfgDefault emptyStore).2).1.2 = "héllo world \"quoted\"" :=
  claim_C3_set_get_roundtrip 0 "name" "héllo world \"quoted\"" cfgDefault emptyStore
    (by decide) (by decide)
    (matchesAt_all_false_of_bounded _ _ (by decide) (by decide))
    (by decide) rfl

end NukeKV
